import Mathlib

/-!
Shallow embedding of the `hotline` render library (files `src/pmfx.rs` and
`src/gfx/d3d12.rs`) and proofs about its render-graph compilation, resource
reclamation and descriptor-heap allocation.

Modelling conventions, used throughout:
* Rust `HashMap<String, V>` is modelled as an association list
  `List (String × V)`; `insert` replaces an existing binding in place or
  appends a fresh one, `remove` filters the key out.  Iteration order of a
  `HashMap` is unspecified in Rust; here it is the list order, so any theorem
  about iteration picks one admissible order.
* Machine integers (`u32`, `u64`, `usize`) are `Nat`; the code under study
  never overflows them in the claims' scenarios.  `f32` window sizes and
  ratio scales are modelled by `ℚ` (exact for the values used), the
  `as u64` cast by `Rat.floor` (truncation, all values are nonnegative).
* Code that panics (`unwrap`, indexing, `panic!`-style aborts) is modelled
  with `Except`/`Option`: `Except.error` marks the fallible outcomes.
* Backend objects (textures, shaders, pipelines, command buffers) are
  identified by `Nat` handles drawn from a monotone counter in the device
  model, so "a new backend object is created" is visible as a new handle.
-/

set_option synthInstance.maxSize 512

namespace Hotline

/-! ## Association-list maps (model of `HashMap<String, V>`) -/

/-- Lookup in an association list, first binding wins (models `HashMap` get). -/
def alookup {κ α : Type} [DecidableEq κ] : List (κ × α) → κ → Option α
  | [], _ => none
  | p :: t, k => if p.1 = k then some p.2 else alookup t k

/-- Key membership (models `HashMap::contains_key`). -/
def acontains {κ α : Type} [DecidableEq κ] (m : List (κ × α)) (k : κ) : Bool :=
  (alookup m k).isSome

/-- Insert-or-replace (models `HashMap::insert`): replaces the binding in
place when the key is present, otherwise appends it. -/
def ainsert {κ α : Type} [DecidableEq κ] : List (κ × α) → κ → α → List (κ × α)
  | [], k, v => [(k, v)]
  | p :: t, k, v => if p.1 = k then (k, v) :: t else p :: ainsert t k v

/-- Remove a key (models `HashMap::remove`, the removed value discarded). -/
def aremove {κ α : Type} [DecidableEq κ] : List (κ × α) → κ → List (κ × α)
  | [], _ => []
  | p :: t, k => if p.1 = k then aremove t k else p :: aremove t k

theorem alookup_nil {κ α : Type} [DecidableEq κ] (k : κ) : alookup ([] : List (κ × α)) k = none := rfl

theorem alookup_cons {κ α : Type} [DecidableEq κ] (p : κ × α) (m : List (κ × α)) (k : κ) :
    alookup (p :: m) k = if p.1 = k then some p.2 else alookup m k := rfl

theorem acontains_iff {κ α : Type} [DecidableEq κ] (m : List (κ × α)) (k : κ) :
    acontains m k = true ↔ ∃ v, alookup m k = some v := by
  unfold acontains
  exact Option.isSome_iff_exists

theorem alookup_ainsert_self {κ α : Type} [DecidableEq κ] (m : List (κ × α)) (k : κ) (v : α) :
    alookup (ainsert m k v) k = some v := by
  induction m with
  | nil => simp [ainsert, alookup]
  | cons p t ih =>
    by_cases hp : p.1 = k
    · simp [ainsert, alookup, hp]
    · simp [ainsert, alookup, hp, ih]

theorem alookup_ainsert_ne {κ α : Type} [DecidableEq κ] (m : List (κ × α)) (k k' : κ) (v : α)
    (hne : k' ≠ k) : alookup (ainsert m k v) k' = alookup m k' := by
  induction m with
  | nil => simp [ainsert, alookup, Ne.symm hne]
  | cons p t ih =>
    by_cases hp : p.1 = k
    · simp [ainsert, alookup, hp, Ne.symm hne, ih]
    · simp [ainsert, alookup_cons, hp, ih]

theorem alookup_aremove_ne {κ α : Type} [DecidableEq κ] (m : List (κ × α)) (k k' : κ)
    (hne : k' ≠ k) : alookup (aremove m k) k' = alookup m k' := by
  induction m with
  | nil => rfl
  | cons p t ih =>
    by_cases hp : p.1 = k
    · have hp' : ¬ p.1 = k' := by rw [hp]; exact Ne.symm hne
      calc alookup (aremove (p :: t) k) k'
          = alookup (aremove t k) k' := by simp [aremove, hp]
        _ = alookup t k' := ih
        _ = alookup (p :: t) k' := by rw [alookup_cons, if_neg hp']
    · simp [aremove, alookup_cons, hp, ih]

theorem alookup_aremove_self {κ α : Type} [DecidableEq κ] (m : List (κ × α)) (k : κ) :
    alookup (aremove m k) k = none := by
  induction m with
  | nil => rfl
  | cons p t ih =>
    by_cases hp : p.1 = k
    · simp [aremove, hp, ih]
    · simp [aremove, alookup_cons, hp, ih]

/-! ## Resource states (`gfx::ResourceState`) -/

/-- The subset of `gfx::ResourceState` the pmfx layer manipulates. -/
inductive ResourceState where
  | ShaderResource
  | RenderTarget
  | DepthStencil
  | UnorderedAccess
  | ResolveSrc
  | ResolveDst
  | Present
  deriving DecidableEq, Repr

/-! ## Descriptor heaps (`d3d12.rs`, `struct Heap` and `impl Heap`)

A handle (`D3D12_CPU_DESCRIPTOR_HANDLE`) is its `ptr` field, a `Nat`.
`allocate` models the source's `panic!("heap is full!")` as `none`. -/

structure Heap where
  base_address : Nat
  increment_size : Nat
  /-- `info.num_descriptors * incr`, set by `create_heap`. -/
  capacity : Nat
  offset : Nat
  /-- Pushed/popped at the `Vec` tail, so the last element is the most
  recently deallocated pointer. -/
  free_list : List Nat
  deriving DecidableEq, Repr

/-- `create_heap` (d3d12.rs): fresh heap with zero offset and empty free list. -/
def create_heap (num_descriptors increment_size base_address : Nat) : Heap :=
  { base_address := base_address
    increment_size := increment_size
    capacity := num_descriptors * increment_size
    offset := 0
    free_list := [] }

/-- `Heap::allocate`: pop the free list (`Vec::pop`, i.e. the tail) when
non-empty, otherwise bump `offset` by `increment_size`; `none` models the
fatal `panic!` when the bump offset has reached capacity. -/
def Heap.allocate (h : Heap) : Option (Nat × Heap) :=
  match h.free_list.getLast? with
  | none =>
    if h.capacity ≤ h.offset then
      none
    else
      some (h.base_address + h.offset, { h with offset := h.offset + h.increment_size })
  | some ptr => some (ptr, { h with free_list := h.free_list.dropLast })

/-- `Heap::get_handle_index`. -/
def Heap.get_handle_index (h : Heap) (ptr : Nat) : Nat :=
  (ptr - h.base_address) / h.increment_size

/-- `Heap::deallocate_internal`: push the handle pointer onto the free list. -/
def Heap.deallocate_internal (h : Heap) (ptr : Nat) : Heap :=
  { h with free_list := h.free_list ++ [ptr] }

/-- `Heap::deallocate` (trait impl): reconstruct the pointer from the slot
index and push it. -/
def Heap.deallocate (h : Heap) (index : Nat) : Heap :=
  h.deallocate_internal (h.base_address + h.increment_size * index)

/-! ## Deferred texture destruction (`d3d12.rs`, `destroy_texture` /
`clean_up_resources`)

`Device::cleanup_textures : Vec<(u32, Texture)>` pairs a frames-waited
counter with the queued texture. -/

/-- The parts of `d3d12::Texture` that `clean_up_resources` releases. -/
structure D3DTexture where
  resource : Nat
  srv_index : Option Nat
  uav_index : Option Nat
  resolved_srv_index : Option Nat
  /-- rtv/dsv hold raw handle pointers. -/
  rtv : Option Nat
  dsv : Option Nat
  /-- `resolved_resource.is_some()`, what `Texture::is_resolvable` returns. -/
  resolved_resource : Option Nat
  deriving DecidableEq, Repr

/-- The parts of `d3d12::Device` that the reclamation claims touch. -/
structure Device where
  shader_heap : Heap
  rtv_heap : Heap
  dsv_heap : Heap
  cleanup_textures : List (Nat × D3DTexture)
  deriving DecidableEq, Repr

/-- `Device::destroy_texture`: enqueue with counter 0. -/
def destroy_texture (d : Device) (t : D3DTexture) : Device :=
  { d with cleanup_textures := d.cleanup_textures ++ [(0, t)] }

/-- The deallocation block run by `clean_up_resources` when an entry's
counter has exceeded the swap-chain length: return the SRV/UAV slots to the
shader heap and the RTV/DSV handles to their heaps. -/
def free_texture (d : Device) (t : D3DTexture) : Device :=
  let d := match t.srv_index with
    | some srv => { d with shader_heap := d.shader_heap.deallocate srv }
    | none => d
  let d := match t.uav_index with
    | some uav => { d with shader_heap := d.shader_heap.deallocate uav }
    | none => d
  let d := match t.rtv with
    | some rtv => { d with rtv_heap := d.rtv_heap.deallocate_internal rtv }
    | none => d
  match t.dsv with
    | some dsv => { d with dsv_heap := d.dsv_heap.deallocate_internal dsv }
    | none => d

/-- One run of the inner `for i in cur..len` loop of `clean_up_resources`,
acting on the suffix `cleanup_textures[cur..]`: increment each visited
counter; at the first counter exceeding `num_bb`, remove that entry and
break, reporting the removed texture and its index within the suffix. -/
def cleanup_pass (num_bb : Nat) : List (Nat × D3DTexture) →
    List (Nat × D3DTexture) × Option (D3DTexture × Nat)
  | [] => ([], none)
  | (c, t) :: rest =>
    if num_bb < c + 1 then
      (rest, some (t, 0))
    else
      match cleanup_pass num_bb rest with
      | (rest', some (u, j)) => ((c + 1, t) :: rest', some (u, j + 1))
      | (rest', none) => ((c + 1, t) :: rest', none)

theorem cleanup_pass_some_length (num_bb : Nat) (l l' : List (Nat × D3DTexture))
    (u : D3DTexture) (j : Nat) (h : cleanup_pass num_bb l = (l', some (u, j))) :
    l'.length + 1 = l.length := by
  induction l generalizing l' u j with
  | nil => simp [cleanup_pass] at h
  | cons p rest ih =>
    obtain ⟨c, t⟩ := p
    by_cases hc : num_bb < c + 1
    · simp only [cleanup_pass, hc, if_pos] at h
      have hfst : rest = l' := congrArg Prod.fst h
      simp [← hfst]
    · simp only [cleanup_pass, hc, if_neg, not_false_iff] at h
      rcases hrec : cleanup_pass num_bb rest with ⟨rest', o⟩
      rw [hrec] at h
      cases o with
      | some uj =>
        obtain ⟨u', j'⟩ := uj
        simp only at h
        obtain ⟨h1, h2⟩ := Prod.mk.injEq .. ▸ h
        rw [← h1]
        simp [ih rest' u' j' hrec]
      | none => simp at h

/-- The `while todo` driver of `clean_up_resources`: repeat the inner pass,
resuming from `cur` = the index of the last removal, freeing each removed
texture as it is found, until a pass completes with no removal. -/
def cleanup_go (num_bb : Nat) (d : Device) (cur : Nat) : Device :=
  match hp : cleanup_pass num_bb (d.cleanup_textures.drop cur) with
  | (suf, some (t, j)) =>
    cleanup_go num_bb
      { free_texture d t with
        cleanup_textures := d.cleanup_textures.take cur ++ suf }
      (cur + j)
  | (suf, none) =>
    { d with cleanup_textures := d.cleanup_textures.take cur ++ suf }
termination_by d.cleanup_textures.length - cur
decreasing_by
  have hlen := cleanup_pass_some_length num_bb _ _ _ _ hp
  have hd : (d.cleanup_textures.drop cur).length = d.cleanup_textures.length - cur :=
    List.length_drop cur d.cleanup_textures
  simp only [List.length_append, List.length_take]
  omega

/-- `Device::clean_up_resources` (the `swap_chain.num_bb` read inlined as
the `num_bb` argument). -/
def clean_up_resources (d : Device) (num_bb : Nat) : Device :=
  cleanup_go num_bb d 0

/-- Reference one-pass semantics: a single left-to-right scan that
increments every counter and frees exactly the entries whose incremented
counter exceeds `num_bb`.  Returns (kept entries, freed textures in
removal order). -/
def cleanScan (num_bb : Nat) : List (Nat × D3DTexture) →
    List (Nat × D3DTexture) × List D3DTexture
  | [] => ([], [])
  | (c, t) :: rest =>
    let r := cleanScan num_bb rest
    if num_bb < c + 1 then (r.1, t :: r.2) else ((c + 1, t) :: r.1, r.2)

/-- All counters incremented by one. -/
def incAll (l : List (Nat × D3DTexture)) : List (Nat × D3DTexture) :=
  l.map (fun p => (p.1 + 1, p.2))

theorem cleanup_pass_none_spec (num_bb : Nat) (l l' : List (Nat × D3DTexture))
    (h : cleanup_pass num_bb l = (l', none)) :
    l' = incAll l ∧ ∀ p ∈ l, ¬ num_bb < p.1 + 1 := by
  induction l generalizing l' with
  | nil =>
    simp only [cleanup_pass] at h
    cases h
    exact ⟨rfl, by simp⟩
  | cons p rest ih =>
    obtain ⟨c, t⟩ := p
    by_cases hc : num_bb < c + 1
    · simp [cleanup_pass, hc] at h
    · simp only [cleanup_pass, hc, if_neg, not_false_iff] at h
      rcases hrec : cleanup_pass num_bb rest with ⟨rest', o⟩
      rw [hrec] at h
      cases o with
      | some uj => simp at h
      | none =>
        have h1 : (c + 1, t) :: rest' = l' := congrArg Prod.fst h
        obtain ⟨hrest, hallrest⟩ := ih rest' hrec
        constructor
        · rw [← h1, hrest]; simp [incAll]
        · intro q hq
          rcases List.mem_cons.mp hq with hq1 | hq1
          · rw [hq1]; simpa using hc
          · exact hallrest q hq1

theorem cleanup_pass_some_spec (num_bb : Nat) (l l' : List (Nat × D3DTexture))
    (u : D3DTexture) (j : Nat) (h : cleanup_pass num_bb l = (l', some (u, j))) :
    ∃ a c b, l = a ++ (c, u) :: b ∧ (∀ p ∈ a, ¬ num_bb < p.1 + 1) ∧
      num_bb < c + 1 ∧ l' = incAll a ++ b ∧ j = a.length := by
  induction l generalizing l' u j with
  | nil => simp [cleanup_pass] at h
  | cons p rest ih =>
    obtain ⟨c, t⟩ := p
    by_cases hc : num_bb < c + 1
    · simp only [cleanup_pass, hc, if_pos] at h
      injection h with h1 h2
      injection h2 with h3
      injection h3 with h4 h5
      exact ⟨[], c, rest, by simp [h4], by simp, hc, by simp [h1, incAll], by simp [← h5]⟩
    · simp only [cleanup_pass, hc, if_neg, not_false_iff] at h
      rcases hrec : cleanup_pass num_bb rest with ⟨rest', o⟩
      rw [hrec] at h
      cases o with
      | none => simp at h
      | some uj =>
        obtain ⟨u', j'⟩ := uj
        injection h with h1 h2
        injection h2 with h3
        injection h3 with h4 h5
        obtain ⟨a, c', b, hs, hcold, hhot, hrest', hj⟩ := ih rest' u' j' hrec
        refine ⟨(c, t) :: a, c', b, ?_, ?_, hhot, ?_, ?_⟩
        · rw [hs, h4]; simp
        · intro q hq
          rcases List.mem_cons.mp hq with hq1 | hq1
          · rw [hq1]; simpa using hc
          · exact hcold q hq1
        · rw [← h1, hrest']; simp [incAll]
        · rw [← h5, hj]; simp

theorem cleanScan_append_cold (num_bb : Nat) (a l : List (Nat × D3DTexture))
    (ha : ∀ p ∈ a, ¬ num_bb < p.1 + 1) :
    cleanScan num_bb (a ++ l) =
      (incAll a ++ (cleanScan num_bb l).1, (cleanScan num_bb l).2) := by
  induction a with
  | nil => simp [incAll]
  | cons p t ih =>
    obtain ⟨c, u⟩ := p
    have hc : ¬ num_bb < c + 1 := ha (c, u) (by simp)
    have ht : ∀ q ∈ t, ¬ num_bb < q.1 + 1 := fun q hq => ha q (by simp [hq])
    simp [cleanScan, hc, ih ht, incAll]

theorem cleanScan_all_cold (num_bb : Nat) (l : List (Nat × D3DTexture))
    (hall : ∀ p ∈ l, ¬ num_bb < p.1 + 1) :
    cleanScan num_bb l = (incAll l, []) := by
  have := cleanScan_append_cold num_bb l [] hall
  simpa [cleanScan] using this

theorem free_texture_set_cleanup (d : Device) (c : List (Nat × D3DTexture))
    (t : D3DTexture) :
    free_texture { d with cleanup_textures := c } t =
      { free_texture d t with cleanup_textures := c } := by
  unfold free_texture
  rcases t with ⟨res, srv, uav, rsrv, rtv, dsv, rr⟩
  cases srv <;> cases uav <;> cases rtv <;> cases dsv <;> rfl

theorem foldl_free_set_cleanup (X : List D3DTexture) :
    ∀ (d : Device) (c : List (Nat × D3DTexture)),
    X.foldl free_texture { d with cleanup_textures := c } =
      { X.foldl free_texture d with cleanup_textures := c } := by
  induction X with
  | nil => intro d c; rfl
  | cons t rest ih =>
    intro d c
    simp only [List.foldl_cons, free_texture_set_cleanup]
    exact ih (free_texture d t) c

/-- The characterisation of the `while todo` loop: one call to
`clean_up_resources` increments every queued counter by exactly one,
removes (and frees) exactly the entries whose incremented counter exceeds
`num_bb`, and keeps everything else in order. -/
theorem cleanup_go_spec (num_bb : Nat) : ∀ (n : Nat) (d : Device) (cur : Nat),
    d.cleanup_textures.length - cur = n →
    cleanup_go num_bb d cur =
      { (cleanScan num_bb (d.cleanup_textures.drop cur)).2.foldl free_texture d with
        cleanup_textures := d.cleanup_textures.take cur
          ++ (cleanScan num_bb (d.cleanup_textures.drop cur)).1 } := by
  intro n
  induction n using Nat.strong_induction_on with
  | _ n ih =>
    intro d cur hn
    rcases hpass : cleanup_pass num_bb (d.cleanup_textures.drop cur) with ⟨suf, o⟩
    cases o with
    | none =>
      obtain ⟨hsuf, hall⟩ := cleanup_pass_none_spec _ _ _ hpass
      rw [cleanup_go.eq_def]
      split
      · rename_i suf' t j heq
        rw [hpass] at heq
        cases heq
      · rename_i suf' heq
        rw [hpass] at heq
        cases heq
        rw [cleanScan_all_cold num_bb _ hall, hsuf]
        simp
    | some pj =>
      obtain ⟨t, j⟩ := pj
      obtain ⟨a, c, b, hsplit, hcold, hhot, hsuf, hj⟩ :=
        cleanup_pass_some_spec _ _ _ _ _ hpass
      have hcur : cur ≤ d.cleanup_textures.length := by
        by_contra hlt
        push_neg at hlt
        have hnil : d.cleanup_textures.drop cur = [] :=
          List.drop_eq_nil_of_le (le_of_lt hlt)
        rw [hnil] at hsplit
        exact absurd hsplit (by simp)
      have htake : (d.cleanup_textures.take cur).length = cur := by
        rw [List.length_take]; omega
      have hdroplen : (d.cleanup_textures.drop cur).length =
          d.cleanup_textures.length - cur := List.length_drop cur d.cleanup_textures
      have hablen : a.length + 1 + b.length = n := by
        rw [hsplit] at hdroplen
        simp only [List.length_append, List.length_cons] at hdroplen
        omega
      rw [cleanup_go.eq_def]
      split
      · rename_i suf' t' j' heq
        rw [hpass] at heq
        cases heq
        set d1 : Device :=
          { free_texture d t with
            cleanup_textures := d.cleanup_textures.take cur ++ suf } with hd1
        have hd1c : d1.cleanup_textures =
            (d.cleanup_textures.take cur ++ incAll a) ++ b := by
          simp [hd1, hsuf, List.append_assoc]
        have hpre : (d.cleanup_textures.take cur ++ incAll a).length = cur + j := by
          simp [List.length_append, htake, incAll, hj]
        have hm : d1.cleanup_textures.length - (cur + j) = b.length := by
          rw [hd1c]
          have hia : (incAll a).length = a.length := by simp [incAll]
          simp only [List.length_append, htake, hia]
          omega
        have hblt : b.length < n := by omega
        have hrec := ih b.length hblt d1 (cur + j) hm
        have hdrop1 : d1.cleanup_textures.drop (cur + j) = b := by
          rw [hd1c, ← hpre, List.drop_left]
        have htake1 : d1.cleanup_textures.take (cur + j) =
            d.cleanup_textures.take cur ++ incAll a := by
          rw [hd1c, ← hpre, List.take_left]
        rw [hrec, hdrop1, htake1]
        have hscan : cleanScan num_bb (d.cleanup_textures.drop cur) =
            (incAll a ++ (cleanScan num_bb b).1, t :: (cleanScan num_bb b).2) := by
          rw [hsplit, cleanScan_append_cold num_bb a _ hcold]
          simp [cleanScan, hhot]
        rw [hscan]
        simp only [List.foldl_cons]
        rw [hd1, foldl_free_set_cleanup]
        simp [List.append_assoc]
      · rename_i suf' heq
        rw [hpass] at heq
        cases heq

/-- `clean_up_resources` in closed form. -/
theorem clean_up_resources_spec (d : Device) (num_bb : Nat) :
    clean_up_resources d num_bb =
      { (cleanScan num_bb d.cleanup_textures).2.foldl free_texture d with
        cleanup_textures := (cleanScan num_bb d.cleanup_textures).1 } := by
  have := cleanup_go_spec num_bb (d.cleanup_textures.length) d 0 (by simp)
  simpa [clean_up_resources] using this

/-- `cleanScan` in map/filter form: every counter is incremented by one;
exactly the entries whose incremented counter exceeds `num_bb` are freed. -/
theorem cleanScan_eq_filter (num_bb : Nat) (l : List (Nat × D3DTexture)) :
    cleanScan num_bb l =
      ((incAll l).filter (fun p => decide (p.1 ≤ num_bb)),
       ((incAll l).filter (fun p => decide (num_bb < p.1))).map Prod.snd) := by
  induction l with
  | nil => simp [cleanScan, incAll]
  | cons p rest ih =>
    obtain ⟨c, t⟩ := p
    by_cases hc : num_bb < c + 1
    · have h1 : ¬ c + 1 ≤ num_bb := by omega
      simp [cleanScan, hc, ih, incAll, List.filter_cons, h1]
    · have h1 : c + 1 ≤ num_bb := by omega
      have h2 : ¬ num_bb < c + 1 := hc
      simp [cleanScan, h2, ih, incAll, List.filter_cons, h1]

/-- C9: `Heap::allocate` pops the most recently deallocated slot when the
free list is non-empty (LIFO: an allocate right after a deallocate returns
exactly the deallocated pointer and restores the heap), otherwise bumps the
monotone offset, and fails fatally (modelled `none`) when the bump offset
has met or exceeded capacity.  On a heap of capacity 4, after 4 allocations
and one deallocation of handle #2, the fifth allocation returns handle #2's
slot, while without the deallocation it would panic. -/
theorem heap_allocate_spec :
    (∀ (h : Heap) (ptr : Nat),
        (h.deallocate_internal ptr).allocate = some (ptr, h))
    ∧ (∀ h : Heap, h.free_list = [] → h.offset < h.capacity →
        h.allocate = some (h.base_address + h.offset,
          { h with offset := h.offset + h.increment_size }))
    ∧ (∀ h : Heap, h.free_list = [] → h.capacity ≤ h.offset →
        h.allocate = none)
    ∧ ((do
          let a ← (create_heap 4 1 0).allocate
          let b ← a.2.allocate
          let c ← b.2.allocate
          let d ← c.2.allocate
          let e := d.2.deallocate (d.2.get_handle_index c.1)
          e.allocate : Option (Nat × Heap)).map Prod.fst = some 2
        ∧ (do
          let a ← (create_heap 4 1 0).allocate
          let b ← a.2.allocate
          let c ← b.2.allocate
          let d ← c.2.allocate
          d.2.allocate : Option (Nat × Heap)) = none) := by
  refine ⟨?_, ?_, ?_, by decide, by decide⟩
  · intro h ptr
    unfold Heap.deallocate_internal Heap.allocate
    simp
  · intro h hfl hlt
    unfold Heap.allocate
    rw [hfl]
    simp [Nat.not_le_of_lt hlt]
  · intro h hfl hge
    unfold Heap.allocate
    rw [hfl]
    simp [hge]

/-- Witness for `heap_allocate_spec` at concrete inputs: allocating after a
deallocation on a concrete heap returns the deallocated pointer, and a full
heap with an empty free list fails. -/
theorem heap_allocate_spec_witness :
    (Heap.allocate (Heap.deallocate_internal (create_heap 4 1 0) 7)
        = some (7, create_heap 4 1 0))
    ∧ Heap.allocate
        { base_address := 0, increment_size := 1, capacity := 4, offset := 4,
          free_list := [] } = none :=
  ⟨heap_allocate_spec.1 (create_heap 4 1 0) 7,
   heap_allocate_spec.2.2.1 _ rfl (by decide)⟩

/-- C4: a texture given to `destroy_texture` is enqueued with counter 0;
each `clean_up_resources` call increments every queued counter by exactly
one and frees exactly the entries whose counter exceeds the swap-chain
buffer count `num_bb`; hence the texture is still queued (with counter `k`)
after any `k ≤ num_bb` calls, and the `num_bb + 1`-st call is the one that
frees it (its descriptor-heap slots returned via `free_texture`). -/
theorem destroy_texture_reclamation (d : Device) (t : D3DTexture) (num_bb : Nat) :
    (destroy_texture d t).cleanup_textures = d.cleanup_textures ++ [(0, t)]
    ∧ (∀ dev : Device, clean_up_resources dev num_bb =
        { (((incAll dev.cleanup_textures).filter
              (fun p => decide (num_bb < p.1))).map Prod.snd).foldl free_texture dev with
          cleanup_textures :=
            (incAll dev.cleanup_textures).filter (fun p => decide (p.1 ≤ num_bb)) })
    ∧ (∀ k, k ≤ num_bb →
        ∃ pre, ((fun dev => clean_up_resources dev num_bb)^[k]
            (destroy_texture d t)).cleanup_textures = pre ++ [(k, t)])
    ∧ (∃ dpre kept, (fun dev => clean_up_resources dev num_bb)^[num_bb + 1]
          (destroy_texture d t)
        = { free_texture dpre t with cleanup_textures := kept }) := by
  have hstep : ∀ dev : Device, clean_up_resources dev num_bb =
      { (((incAll dev.cleanup_textures).filter
            (fun p => decide (num_bb < p.1))).map Prod.snd).foldl free_texture dev with
        cleanup_textures :=
          (incAll dev.cleanup_textures).filter (fun p => decide (p.1 ≤ num_bb)) } := by
    intro dev
    rw [clean_up_resources_spec, cleanScan_eq_filter]
  have hqueued : ∀ k, k ≤ num_bb →
      ∃ pre, ((fun dev => clean_up_resources dev num_bb)^[k]
          (destroy_texture d t)).cleanup_textures = pre ++ [(k, t)] := by
    intro k hk
    induction k with
    | zero => exact ⟨d.cleanup_textures, by simp [destroy_texture]⟩
    | succ k ihk =>
      obtain ⟨pre, hpre⟩ := ihk (Nat.le_of_succ_le hk)
      refine ⟨(incAll pre).filter (fun p => decide (p.1 ≤ num_bb)), ?_⟩
      rw [Function.iterate_succ_apply', hstep, hpre]
      have hkeep : k + 1 ≤ num_bb := hk
      simp [incAll, List.filter_append, List.filter_cons, hkeep]
  refine ⟨rfl, hstep, hqueued, ?_⟩
  obtain ⟨pre, hpre⟩ := hqueued num_bb (le_refl num_bb)
  set dev := (fun dev => clean_up_resources dev num_bb)^[num_bb] (destroy_texture d t)
    with hdev
  refine ⟨(((incAll pre).filter (fun p => decide (num_bb < p.1))).map Prod.snd).foldl
      free_texture dev,
    (incAll pre).filter (fun p => decide (p.1 ≤ num_bb)), ?_⟩
  rw [Function.iterate_succ_apply', ← hdev, hstep, hpre]
  have hdrop : ¬ num_bb + 1 ≤ num_bb := by omega
  have hhot : num_bb < num_bb + 1 := by omega
  simp [incAll, List.filter_append, List.filter_cons, hdrop, hhot,
    List.foldl_append]

/-- Witness for `destroy_texture_reclamation` at a concrete device with two
in-flight frames: after 1 of the 2 allowed calls the texture is still
queued, and the entry carries counter 1. -/
theorem destroy_texture_reclamation_witness :
    ∃ pre, ((fun dev => clean_up_resources dev 2)^[1]
        (destroy_texture
          { shader_heap := create_heap 8 1 0, rtv_heap := create_heap 8 1 100,
            dsv_heap := create_heap 8 1 200, cleanup_textures := [] }
          { resource := 5, srv_index := some 0, uav_index := none,
            resolved_srv_index := none, rtv := some 100, dsv := none,
            resolved_resource := none })).cleanup_textures
      = pre ++ [(1,
          { resource := 5, srv_index := some 0, uav_index := none,
            resolved_srv_index := none, rtv := some 100, dsv := none,
            resolved_resource := none })] :=
  (destroy_texture_reclamation _ _ 2).2.2.1 1 (by decide)

/-! ## pmfx data model (`pmfx.rs` serialisation structures)

Only the fields the claims exercise are modelled; formats are `Nat` codes
(`DXGI_FORMAT_UNKNOWN` is `0`). -/

structure TextureSizeRatio where
  window : String
  scale : ℚ
  deriving DecidableEq, Repr

structure TextureInfo where
  ratio : Option TextureSizeRatio
  width : Nat
  height : Nat
  samples : Nat
  format : Nat
  usage : List ResourceState
  hash : Nat
  deriving DecidableEq, Repr

structure ViewInfo where
  render_target : List String
  depth_stencil : List String
  camera : String
  hash : Nat
  deriving DecidableEq, Repr

structure GraphViewInfo where
  view : String
  pipelines : Option (List String)
  depends_on : Option (List String)
  deriving DecidableEq, Repr

/-- One pipeline permutation.  `vertex_layout : Option Unit` keeps the
source's `vertex_layout.as_ref().unwrap()` fallibility without modelling
layout contents. -/
structure Pipeline where
  vs : Option String
  ps : Option String
  cs : Option String
  vertex_layout : Option Unit
  hash : Nat
  deriving DecidableEq, Repr

/-- Permutations are keyed by the permutation mask.  The source stores the
key as a decimal string and `parse().unwrap()`s it back; the model keys by
the numeric mask directly. -/
abbrev PipelinePermutations : Type := List (Nat × Pipeline)

/-- `pmfx::File`: the deserialised pmfx data (the fields the claims use). -/
structure File where
  shaders : List (String × Nat)
  pipelines : List (String × PipelinePermutations)
  textures : List (String × TextureInfo)
  views : List (String × ViewInfo)
  render_graphs : List (String × List (String × GraphViewInfo))
  deriving DecidableEq, Repr

/-! ## Backend objects (`gfx` trait as implemented by `d3d12.rs`),
identified by `Nat` handles from a monotone counter -/

structure GfxTexture where
  handle : Nat
  /-- `Texture::is_resolvable()` = `resolved_resource.is_some()`; d3d12
  creates the resolve resource iff the texture was created with
  `samples > 1`. -/
  resolvable : Bool
  format : Nat
  samples : Nat
  deriving DecidableEq, Repr

structure RenderPass where
  handle : Nat
  /-- `RenderPass::get_format_hash()`: hash of (sample count, ds format,
  rt formats); any injective-enough mixing models `DefaultHasher`. -/
  format_hash : Nat
  deriving DecidableEq, Repr

structure TransitionBarrier where
  texture : Option Nat
  state_before : ResourceState
  state_after : ResourceState
  deriving DecidableEq, Repr

inductive GfxCmd where
  | transition_barrier (b : TransitionBarrier)
  | transition_barrier_subresource (b : TransitionBarrier)
  | resolve_texture_subresource (texture : Nat) (subresource : Nat)
  deriving DecidableEq, Repr

structure CmdBuf where
  handle : Nat
  cmds : List GfxCmd
  closed : Bool
  deriving DecidableEq, Repr

/-- The backend device as the pmfx layer sees it: a fresh-handle counter,
the set of shader files readable on disk (for `create_shader_from_file`),
and the handles handed to `destroy_texture`. -/
structure GfxDevice where
  next : Nat
  shader_files : List String
  destroyed : List Nat
  deriving DecidableEq, Repr

def GfxDevice.fresh (d : GfxDevice) : Nat × GfxDevice :=
  (d.next, { d with next := d.next + 1 })

/-- Model of the gfx texture-creation info that `to_gfx_texture_info`
produces (the fields the backend model consumes). -/
structure GfxTextureInfo where
  width : Nat
  height : Nat
  samples : Nat
  format : Nat
  deriving DecidableEq, Repr

/-- `Device::create_texture` (d3d12): fresh resource; the resolve resource
(hence resolvability) exists iff `samples > 1`. -/
def GfxDevice.create_texture (d : GfxDevice) (info : GfxTextureInfo) :
    GfxTexture × GfxDevice :=
  let (h, d) := d.fresh
  ({ handle := h, resolvable := decide (1 < info.samples),
     format := info.format, samples := info.samples }, d)

/-- `Device::create_cmd_buf`: fresh, open, empty command buffer. -/
def GfxDevice.create_cmd_buf (d : GfxDevice) (_num_buffers : Nat) :
    CmdBuf × GfxDevice :=
  let (h, d) := d.fresh
  ({ handle := h, cmds := [], closed := false }, d)

/-- Mixing function standing in for `DefaultHasher` over
(sample count, ds format, rt formats). -/
def format_hash_of (sample_count ds_format : Nat) (rt_formats : List Nat) : Nat :=
  rt_formats.foldl (fun h f => h * 1000003 + f + 1)
    (sample_count * 1000003 + ds_format + 1)

/-- The sample-count agreement check of `Device::create_render_pass`:
walks the render targets, errors if two disagree, collects formats. -/
def check_sample_counts : Option Nat → List GfxTexture →
    Except String (Option Nat × List Nat)
  | sc, [] => Except.ok (sc, [])
  | sc, t :: rest =>
    match sc with
    | none => do
      let (sc2, fmts) ← check_sample_counts (some t.samples) rest
      Except.ok (sc2, t.format :: fmts)
    | some s =>
      if s ≠ t.samples then
        Except.error "Sample counts must match on all targets"
      else do
        let (sc2, fmts) ← check_sample_counts (some s) rest
        Except.ok (sc2, t.format :: fmts)

/-- `Device::create_render_pass` (the parts visible to the pmfx layer):
sample counts must agree; `sample_count.unwrap()` panics when there are no
render targets; the pass carries the format hash. -/
def GfxDevice.create_render_pass (d : GfxDevice) (render_targets : List GfxTexture)
    (depth_stencil : Option GfxTexture) : Except String (RenderPass × GfxDevice) := do
  let (sc, fmts) ← check_sample_counts none render_targets
  let ds_format := match depth_stencil with
    | some t => t.format
    | none => 0
  match sc with
  | none => Except.error "panic: sample_count.unwrap() with no render targets"
  | some s =>
    let (h, d) := d.fresh
    Except.ok ({ handle := h, format_hash := format_hash_of s ds_format fmts }, d)

/-! ## The `Pmfx` instance state (`pub struct Pmfx<D>`)

In the source every operation takes the backend device as a separate
`&mut D` argument; the model bundles the device into the state so each
operation is a function on one record. -/

structure TrackedTexture where
  texture : GfxTexture
  ratio : Option TextureSizeRatio
  size : Nat × Nat
  deriving DecidableEq, Repr

/-- `pmfx::View<D>` (the fields the claims use; `cmd_buf` is a backend
handle). -/
structure View where
  graph_view_name : String
  pmfx_view_name : String
  pass : RenderPass
  cmd_buf : Nat
  camera : String
  view_pipeline : String
  deriving DecidableEq, Repr

/-- `pmfx::Pmfx<D>` (the fields the claims use).  `warnings` collects the
`println!` warning lines the claims mention. -/
structure Pmfx where
  pmfx : File
  pmfx_folders : List (String × String)
  window_sizes : List (String × (ℚ × ℚ))
  /-- format hash → pipeline name → permutation mask → (build hash, pso). -/
  render_pipelines : List (Nat × List (String × List (Nat × (Nat × Nat))))
  compute_pipelines : List (String × (Nat × Nat))
  shaders : List (String × (Nat × Nat))
  textures : List (String × (Nat × TrackedTexture))
  views : List (String × (Nat × View × String))
  barriers : List (String × CmdBuf)
  render_graph_execute_order : List String
  view_texture_refs : List (String × List String)
  active_render_graph : String
  warnings : List String
  device : GfxDevice
  deriving DecidableEq, Repr

/-- `to_gfx_texture_info` (the consumed fields). -/
def to_gfx_texture_info (pmfx_texture : TextureInfo) (ratio_size : Nat × Nat) :
    GfxTextureInfo :=
  { width := ratio_size.1, height := ratio_size.2,
    samples := pmfx_texture.samples, format := pmfx_texture.format }

/-- `get_texture_size_from_ratio`: with a ratio and a tracked window, clamp
the *window* size to at least `samples` per dimension, then scale and
truncate; without a ratio use the fixed width/height. -/
def Pmfx.get_texture_size_from_ratio (s : Pmfx) (pmfx_texture : TextureInfo) :
    Except String (Nat × Nat) :=
  match pmfx_texture.ratio with
  | some ratio =>
    match alookup s.window_sizes ratio.window with
    | some size =>
      let samples : ℚ := (pmfx_texture.samples : ℚ)
      let size : ℚ × ℚ := (max size.1 samples, max size.2 samples)
      Except.ok ((size.1 * ratio.scale).floor.toNat, (size.2 * ratio.scale).floor.toNat)
    | none => Except.error "could not find window for ratio"
  | none => Except.ok (pmfx_texture.width, pmfx_texture.height)

/-- `get_texture`. -/
def Pmfx.get_texture (s : Pmfx) (texture_name : String) : Option GfxTexture :=
  match alookup s.textures texture_name with
  | some tv => some tv.2.texture
  | none => none

/-- `get_texture_2d_size`. -/
def Pmfx.get_texture_2d_size (s : Pmfx) (texture_name : String) : Option (Nat × Nat) :=
  match alookup s.textures texture_name with
  | some tv => some tv.2.size
  | none => none

/-- `create_texture`: no-op unless the texture is not yet created and is
declared in the pmfx file. -/
def Pmfx.create_texture (s : Pmfx) (texture_name : String) : Except String Pmfx :=
  match alookup s.pmfx.textures texture_name with
  | some pmfx_tex =>
    if acontains s.textures texture_name then Except.ok s
    else do
      let size ← s.get_texture_size_from_ratio pmfx_tex
      let (tex, dev) := s.device.create_texture (to_gfx_texture_info pmfx_tex size)
      Except.ok
        { s with
          device := dev,
          textures := ainsert s.textures texture_name
            (pmfx_tex.hash, { texture := tex, ratio := pmfx_tex.ratio, size := size }) }
  | none => Except.ok s

/-- `get_shader`: backend shader handle for a file, if built. -/
def Pmfx.get_shader (s : Pmfx) (file : Option String) : Option Nat :=
  match file with
  | some f => (alookup s.shaders f).map Prod.snd
  | none => none

/-- `create_shader`: compile-and-store a shader file unless already built.
`create_shader_from_file` reads the file from disk (`shader_files`); a read
failure hits the source's `.unwrap()`. -/
def Pmfx.create_shader (s : Pmfx) (file : Option String) : Except String Pmfx :=
  match file with
  | none => Except.ok s
  | some f =>
    if acontains s.shaders f then Except.ok s
    else if f ∈ s.device.shader_files then
      let (h, dev) := s.device.fresh
      match alookup s.pmfx.shaders f with
      | some hash =>
        Except.ok { s with device := dev, shaders := ainsert s.shaders f (hash, h) }
      | none => Except.error "panic: pmfx.shaders.get(file).unwrap()"
    else Except.error "panic: fs::read failed in create_shader_from_file"

/-- `HashSet::insert` on the `view_texture_refs` entry sets. -/
def refs_insert (refs : List (String × List String)) (texture_name view_name : String) :
    List (String × List String) :=
  match alookup refs texture_name with
  | some set =>
    ainsert refs texture_name (if view_name ∈ set then set else set ++ [view_name])
  | none => ainsert refs texture_name [view_name]

/-- `create_view`: no-op when the graph view already exists or the pmfx
view is undeclared; otherwise creates target/depth textures (recording
view→texture back references), builds the render pass from the targets,
and stores the `View` under the graph view name keyed with the pmfx view
hash and source view name. -/
def Pmfx.create_view (s : Pmfx) (view_name graph_view_name : String)
    (info : GraphViewInfo) : Except String Pmfx :=
  if acontains s.views graph_view_name then Except.ok s
  else match alookup s.pmfx.views view_name with
  | none => Except.ok s
  | some pmfx_view => do
    let s ← pmfx_view.render_target.foldlM (fun (st : Pmfx) name => do
        let st ← st.create_texture name
        Except.ok { st with
          view_texture_refs := refs_insert st.view_texture_refs name graph_view_name }) s
    let s ← pmfx_view.depth_stencil.foldlM (fun (st : Pmfx) name => do
        let st ← st.create_texture name
        Except.ok { st with
          view_texture_refs := refs_insert st.view_texture_refs name graph_view_name }) s
    let render_targets ← pmfx_view.render_target.mapM (fun name =>
        match s.get_texture name with
        | some t => Except.ok t
        | none => Except.error "panic: get_texture(name).unwrap()")
    let size ← pmfx_view.render_target.foldlM (fun (_ : Nat × Nat) name =>
        match s.get_texture_2d_size name with
        | some sz => Except.ok sz
        | none => Except.error "panic: get_texture_2d_size(name).unwrap()") (0, 0)
    let ds ← match pmfx_view.depth_stencil with
      | [] => Except.ok ((none : Option GfxTexture), size)
      | name :: _ =>
        match s.get_texture name, s.get_texture_2d_size name with
        | some t, some sz => Except.ok (some t, sz)
        | _, _ => Except.error "panic: depth stencil unwrap"
    let pd ← s.device.create_render_pass render_targets ds.1
    let view_pipeline := match info.pipelines with
      | some pipelines => if pipelines.length = 1 then pipelines.headD "" else ""
      | none => ""
    let cbd := pd.2.create_cmd_buf 2
    let view : View :=
      { graph_view_name := graph_view_name, pmfx_view_name := view_name,
        pass := pd.1, cmd_buf := cbd.1.handle, camera := pmfx_view.camera,
        view_pipeline := view_pipeline }
    Except.ok
      { s with
        device := cbd.2,
        views := ainsert s.views graph_view_name (pmfx_view.hash, view, view_name) }

/-- `get_view` (just presence/lookup; the `Arc<Mutex<_>>` is immaterial). -/
def Pmfx.get_view (s : Pmfx) (view_name : String) : Except String (Nat × View × String) :=
  match alookup s.views view_name with
  | some v => Except.ok v
  | none => Except.error "view not found"

/-- `create_render_graph_views`: create the view for every node of the
graph. -/
def Pmfx.create_render_graph_views (s : Pmfx) (graph_name : String) :
    Except String Pmfx :=
  match alookup s.pmfx.render_graphs graph_name with
  | some pmfx_graph =>
    pmfx_graph.foldlM (fun (st : Pmfx) node => st.create_view node.2.view node.1 node.2) s
  | none => Except.ok s

/-- The per-permutation shader-building step of `create_pipeline`. -/
def shader_step (st : Pmfx) (perm : Nat × Pipeline) : Except String Pmfx := do
  let st ← st.create_shader perm.2.vs
  let st ← st.create_shader perm.2.ps
  st.create_shader perm.2.cs

/-- The per-permutation pso-building step of `create_pipeline`: a compute
permutation stores a fresh pso in `compute_pipelines`; a render permutation
stores a fresh pso in the per-format permutation map (the intermediate
`get_mut(..).unwrap()`s are the `Except.error` branches). -/
def pso_step (fmt : Nat) (pipeline_name : String) (st : Pmfx)
    (perm : Nat × Pipeline) : Except String Pmfx :=
  match st.get_shader perm.2.cs with
  | some _cs_shader =>
    let (pso, dev) := st.device.fresh
    Except.ok
      { st with
        device := dev,
        compute_pipelines := ainsert st.compute_pipelines pipeline_name
          (perm.2.hash, pso) }
  | none =>
    match perm.2.vertex_layout with
    | none => Except.error "panic: vertex_layout.as_ref().unwrap()"
    | some _layout =>
      let (pso, dev) := st.device.fresh
      match alookup st.render_pipelines fmt with
      | none => Except.error "panic: render_pipelines.get_mut(&fmt).unwrap()"
      | some fp =>
        match alookup fp pipeline_name with
        | none => Except.error "panic: format_pipeline.get_mut(name).unwrap()"
        | some perms =>
          Except.ok
            { st with
              device := dev,
              render_pipelines := ainsert st.render_pipelines fmt
                (ainsert fp pipeline_name
                  (ainsert perms perm.1 (perm.2.hash, pso))) }

/-- `self.render_pipelines.entry(fmt).or_insert(HashMap::new())`. -/
def ensure_format_entry (fmt : Nat) (s : Pmfx) : Pmfx :=
  if acontains s.render_pipelines fmt then s
  else { s with render_pipelines := ainsert s.render_pipelines fmt [] }

/-- `create_pipeline`: build shaders for every permutation, ensure the
per-format entry exists, and (only when this pipeline name has no entry for
this pass format yet) build one pso per permutation. -/
def Pmfx.create_pipeline (s : Pmfx) (pipeline_name : String) (pass : RenderPass) :
    Except String Pmfx :=
  match alookup s.pmfx.pipelines pipeline_name with
  | none => Except.error "could not find pipeline"
  | some permutations => do
    let _folder ← match alookup s.pmfx_folders pipeline_name with
      | some f => Except.ok f
      | none => Except.error "panic: pmfx_folders[pipeline_name]"
    let s ← permutations.foldlM shader_step s
    let fmt := pass.format_hash
    let s := ensure_format_entry fmt s
    match alookup s.render_pipelines fmt with
    | none => Except.error "unreachable: format entry just ensured"
    | some format_pipeline =>
      if acontains format_pipeline pipeline_name then Except.ok s
      else
        let s :=
          { s with
            render_pipelines :=
              ainsert s.render_pipelines fmt (ainsert format_pipeline pipeline_name []) }
        permutations.foldlM (pso_step fmt pipeline_name) s

/-! ## Automatic transition barriers and render-graph compilation
(`create_texture_transition_barrier`, `create_resolve_transition`,
`create_render_graph`) -/

/-- The texture state-tracking map, `texture_barriers` in the source. -/
abbrev TextureBarriers : Type := List (String × ResourceState)

/-- `create_texture_transition_barrier`: if the texture is tracked and its
tracked state differs from `target_state`, push `barrier_<view>-<texture>`
onto the execution order, record a closed one-command transition buffer
under that name, and retrack the texture at `target_state`; otherwise leave
everything unchanged.  The `Except.error` is the source's
`get_texture(..).unwrap()` panic. -/
def Pmfx.create_texture_transition_barrier (s : Pmfx) (texture_barriers : TextureBarriers)
    (view_name texture_name : String) (target_state : ResourceState) :
    Except String (Pmfx × TextureBarriers) :=
  match alookup texture_barriers texture_name with
  | some state =>
    if state ≠ target_state then
      let barrier_name := "barrier_" ++ view_name ++ "-" ++ texture_name
      let s := { s with render_graph_execute_order :=
          s.render_graph_execute_order ++ [barrier_name] }
      match s.get_texture texture_name with
      | some tex =>
        let (cb, dev) := s.device.create_cmd_buf 1
        let cb :=
          { cb with
            cmds := cb.cmds ++ [GfxCmd.transition_barrier
              { texture := some tex.handle, state_before := state,
                state_after := target_state }],
            closed := true }
        Except.ok
          ({ s with device := dev, barriers := ainsert s.barriers barrier_name cb },
            ainsert (aremove texture_barriers texture_name) texture_name target_state)
      | none => Except.error "panic: get_texture(texture_name).unwrap()"
    else Except.ok (s, texture_barriers)
  | none => Except.ok (s, texture_barriers)

/-- `create_resolve_transition`: for a tracked texture, push
`barrier_resolve-<view>-<texture>` onto the execution order *before* any
checks; then, if the texture exists, fail when it is not resolvable
(leaving the pushed name dangling), else record the four-command resolve
buffer and retrack the texture at `ResolveSrc`.  The Rust function mutates
`self` before returning `Err`, so the model returns the mutated state
together with an optional error instead of an `Except`. -/
def Pmfx.create_resolve_transition (s : Pmfx) (texture_barriers : TextureBarriers)
    (view_name texture_name : String) (target_state : ResourceState) :
    Pmfx × TextureBarriers × Option String :=
  match alookup texture_barriers texture_name with
  | some state =>
    let barrier_name := "barrier_resolve-" ++ view_name ++ "-" ++ texture_name
    let s := { s with render_graph_execute_order :=
        s.render_graph_execute_order ++ [barrier_name] }
    match s.get_texture texture_name with
    | some tex =>
      if ¬ tex.resolvable then
        (s, texture_barriers, some "texture is not resolvable")
      else
        let (cb, dev) := s.device.create_cmd_buf 1
        let cb :=
          { cb with
            cmds := cb.cmds ++
              [GfxCmd.transition_barrier
                { texture := some tex.handle, state_before := state,
                  state_after := ResourceState.ResolveSrc },
               GfxCmd.transition_barrier_subresource
                { texture := some tex.handle, state_before := target_state,
                  state_after := ResourceState.ResolveDst },
               GfxCmd.resolve_texture_subresource tex.handle 0,
               GfxCmd.transition_barrier_subresource
                { texture := some tex.handle, state_before := ResourceState.ResolveDst,
                  state_after := target_state }],
            closed := true }
        ({ s with device := dev, barriers := ainsert s.barriers barrier_name cb },
          ainsert (aremove texture_barriers texture_name) texture_name
            ResourceState.ResolveSrc,
          none)
    | none => (s, texture_barriers, none)
  | none => (s, texture_barriers, none)

/-- Seeding of the tracking map at the top of `create_render_graph`: every
declared texture whose usage contains shader-resource OR render-target OR
depth-stencil starts tracked at `ShaderResource`. -/
def seed_texture_barriers (textures : List (String × TextureInfo)) : TextureBarriers :=
  (textures.filter (fun tex =>
      tex.2.usage.contains ResourceState.ShaderResource ||
      tex.2.usage.contains ResourceState.RenderTarget ||
      tex.2.usage.contains ResourceState.DepthStencil)).map
    (fun tex => (tex.1, ResourceState.ShaderResource))

/-- The mutable state threaded through the scheduling loop of
`create_render_graph`. -/
structure SchedState where
  s : Pmfx
  tb : TextureBarriers
  to_add : Nat
  added : Nat
  dependencies : List String
  deriving DecidableEq, Repr

/-- One node of one pass of the scheduling loop (`for (graph_view_name,
instance) in &pmfx_graph`): discount nodes with undeclared views (warn);
skip already-scheduled nodes; run the `depends_on` check (the source folds
a single `passes` flag over the entries, so the last entry decides); when
the node proceeds, emit transition barriers for its targets and depth
stencils, build requested pipelines, and append the node to the execution
order. -/
def sched_node (pmfx_graph : List (String × GraphViewInfo)) (st : SchedState)
    (node : String × GraphViewInfo) : Except String SchedState :=
  let graph_view_name := node.1
  let inst := node.2
  match alookup st.s.pmfx.views inst.view with
  | none =>
    Except.ok
      { st with
        s := { st.s with warnings :=
          st.s.warnings ++ ["missing view " ++ inst.view] },
        to_add := st.to_add - 1 }
  | some pmfx_view =>
    if graph_view_name ∈ st.dependencies then Except.ok st
    else
      let dep_check : Option (Bool × List String) :=
        match inst.depends_on with
        | none => none
        | some depends_on =>
          if 0 < depends_on.length then
            some (depends_on.foldl (fun acc d =>
              if ¬ acontains pmfx_graph d then
                (true, acc.2 ++ ["view " ++ inst.view ++
                  " missing dependency " ++ d ++ ". ignoring"])
              else if d ∈ st.dependencies then (true, acc.2)
              else (false, acc.2)) (false, []))
          else some (false, [])
      let st :=
        match dep_check with
        | some pw =>
          { st with s := { st.s with warnings := st.s.warnings ++ pw.2 } }
        | none => st
      let passes :=
        match dep_check with
        | some pw => pw.1
        | none => true
      if passes = false then Except.ok st
      else do
        let (s, tb) ← pmfx_view.render_target.foldlM
          (fun (p : Pmfx × TextureBarriers) rt_name =>
            p.1.create_texture_transition_barrier p.2 inst.view rt_name
              ResourceState.RenderTarget) (st.s, st.tb)
        let (s, tb) ← pmfx_view.depth_stencil.foldlM
          (fun (p : Pmfx × TextureBarriers) ds_name =>
            p.1.create_texture_transition_barrier p.2 inst.view ds_name
              ResourceState.DepthStencil) (s, tb)
        let s ← match inst.pipelines with
          | some view_pipelines =>
            view_pipelines.foldlM (fun (sp : Pmfx) pipeline => do
              let v ← sp.get_view graph_view_name
              sp.create_pipeline pipeline v.2.1.pass) s
          | none => Except.ok s
        Except.ok
          { st with
            s := { s with render_graph_execute_order :=
              s.render_graph_execute_order ++ [graph_view_name] },
            tb := tb,
            added := st.added + 1,
            dependencies := st.dependencies ++ [graph_view_name] }

/-- The `while added < to_add` driver, with explicit fuel standing in for
the (potentially diverging) source loop. -/
def sched_loop (pmfx_graph : List (String × GraphViewInfo)) :
    Nat → SchedState → Except String SchedState
  | 0, st =>
    if st.added < st.to_add then Except.error "fuel exhausted: scheduling loop diverges"
    else Except.ok st
  | fuel + 1, st =>
    if st.added < st.to_add then do
      let st ← pmfx_graph.foldlM (sched_node pmfx_graph) st
      sched_loop pmfx_graph fuel st
    else Except.ok st

/-- The end-of-frame loop of `create_render_graph`: for every tracked
texture, attempt the resolve transition (its error is ignored), then the
plain transition back to `ShaderResource`. -/
def eof_step (p : Pmfx × TextureBarriers) (name : String) :
    Except String (Pmfx × TextureBarriers) :=
  let r := p.1.create_resolve_transition p.2 "eof" name ResourceState.ShaderResource
  -- `if result.is_err() { /* TODO: tell user */ }` — the error is dropped
  r.1.create_texture_transition_barrier r.2.1 "eof" name ResourceState.ShaderResource

/-- `create_render_graph`: create views, reset barriers and execution
order, seed the tracking map, run the scheduling loop, then transition
every tracked texture back to shader-resource for debug views. -/
def Pmfx.create_render_graph (s : Pmfx) (graph_name : String) (fuel : Nat) :
    Except String Pmfx :=
  match alookup s.pmfx.render_graphs graph_name with
  | none => Except.error "could not find render graph"
  | some pmfx_graph => do
    let s ← s.create_render_graph_views graph_name
    let s := { s with barriers := [], render_graph_execute_order := [] }
    let barriers := seed_texture_barriers s.pmfx.textures
    let st ← sched_loop pmfx_graph fuel
      { s := s, tb := barriers, to_add := pmfx_graph.length, added := 0,
        dependencies := [] }
    let srvs := st.tb.map Prod.fst
    let (s, _tb) ← srvs.foldlM eof_step (st.s, st.tb)
    Except.ok { s with active_render_graph := graph_name }

/-! ## Frame execution (`execute`) -/

/-- What `device.execute` receives for one entry of the execution order. -/
inductive Submission where
  | barrier (cb : CmdBuf)
  | view (cmd_buf : Nat)
  deriving DecidableEq, Repr

/-- `execute`: walk the execution order; submit the stored barrier buffer
if the name is a barrier, else the view command buffer if the name is a
view, else silently skip the entry. -/
def Pmfx.execute (s : Pmfx) : List Submission :=
  s.render_graph_execute_order.foldl (fun acc node =>
    match alookup s.barriers node with
    | some cb => acc ++ [Submission.barrier cb]
    | none =>
      match alookup s.views node with
      | some v => acc ++ [Submission.view v.2.1.cmd_buf]
      | none => acc) []

/-! ## Hot reload (`merge_pmfx`, `recreate_textures`, `reload`) -/

/-- `merge_pmfx`: `HashMap::extend` of every section of `other` into the
current pmfx data (existing keys are overwritten). -/
def merge_pmfx (s : Pmfx) (other : File) : Pmfx :=
  { s with pmfx :=
    { shaders := other.shaders.foldl (fun m kv => ainsert m kv.1 kv.2) s.pmfx.shaders,
      pipelines := other.pipelines.foldl (fun m kv => ainsert m kv.1 kv.2) s.pmfx.pipelines,
      textures := other.textures.foldl (fun m kv => ainsert m kv.1 kv.2) s.pmfx.textures,
      views := other.views.foldl (fun m kv => ainsert m kv.1 kv.2) s.pmfx.views,
      render_graphs := other.render_graphs.foldl (fun m kv => ainsert m kv.1 kv.2)
        s.pmfx.render_graphs } }

/-- `get_view_texture_refs`. -/
def Pmfx.get_view_texture_refs (s : Pmfx) (texture_name : String) : List String :=
  match alookup s.view_texture_refs texture_name with
  | some refs => refs
  | none => []

/-- `recreate_textures`: remove each named texture (panicking if absent),
hand its backend object to the device for destruction, and create it
afresh. -/
def Pmfx.recreate_textures (s : Pmfx) (texture_names : List String) :
    Except String Pmfx :=
  texture_names.foldlM (fun (st : Pmfx) name => do
    match alookup st.textures name with
    | none => Except.error "panic: textures.remove(texture_name).unwrap()"
    | some tex =>
      let st :=
        { st with
          textures := aremove st.textures name,
          device := { st.device with
            destroyed := st.device.destroyed ++ [tex.2.texture.handle] } }
      st.create_texture name) s

/-- The live textures whose stored hash differs from the (merged) pmfx
data — `reload_textures` in the source. -/
def reload_textures_of (s : Pmfx) : List String :=
  (s.textures.filter (fun kv =>
      match alookup s.pmfx.textures kv.1 with
      | some src => decide (src.hash ≠ kv.2.1)
      | none => false)).map Prod.fst

/-- The graph views referencing a changed texture —
`reload_texture_views` in the source (a `HashSet` union). -/
def reload_texture_views_of (s : Pmfx) : List String :=
  (reload_textures_of s).foldl (fun acc t =>
      acc ++ (s.get_view_texture_refs t).filter (fun v => decide (v ∉ acc))) []

/-- The live views to drop: hash changed or touching a changed texture —
`reload_views` (pairs of source view name and graph view name). -/
def reload_views_of (s : Pmfx) : List (String × String) :=
  (s.views.filter (fun kv =>
      match alookup s.pmfx.views kv.2.2.2 with
      | some vi => decide (vi.hash ≠ kv.2.1)
          || decide (kv.1 ∈ reload_texture_views_of s)
      | none => false)).map (fun kv => (kv.2.2.2, kv.1))

/-- The stale pipeline permutations — `reload_pipelines` (format hash,
pipeline name, permutation mask); the `unwrap()`s are the error cases. -/
def reload_pipelines_of (s : Pmfx) : Except String (List (Nat × String × Nat)) :=
  s.render_pipelines.foldlM (fun acc fmtkv =>
      fmtkv.2.foldlM (fun acc namekv =>
        namekv.2.foldlM (fun (acc : List (Nat × String × Nat)) maskkv =>
          match alookup s.pmfx.pipelines namekv.1 with
          | none => Except.error "panic: pmfx.pipelines.get(name).unwrap()"
          | some perms =>
            match alookup perms maskkv.1 with
            | none => Except.error "panic: permutations.get(&mask.to_string()).unwrap()"
            | some pipeline =>
              Except.ok (if pipeline.hash ≠ maskkv.2.1 then
                acc ++ [(fmtkv.1, namekv.1, maskkv.1)] else acc)) acc) acc)
    ([] : List (Nat × String × Nat))

/-- The stale shaders — `reload_shaders`. -/
def reload_shaders_of (s : Pmfx) : List String :=
  (s.shaders.filter (fun kv =>
      match alookup s.pmfx.shaders kv.1 with
      | some h => decide (h ≠ kv.2.1)
      | none => false)).map Prod.fst

/-- The recreation loop over the stale pipelines: remove the pipeline name
from its per-format map, then rebuild it against the first view with a
compatible pass format (or warn). -/
def reload_pipeline_step (st : Pmfx) (p : Nat × String × Nat) : Except String Pmfx :=
  match alookup st.render_pipelines p.1 with
  | none => Except.error "panic: render_pipelines.get_mut(&hash).unwrap()"
  | some fp =>
    let st :=
      { st with render_pipelines := ainsert st.render_pipelines p.1 (aremove fp p.2.1) }
    match st.views.find? (fun kv => kv.2.2.1.pass.format_hash = p.1) with
    | some kv => st.create_pipeline p.2.1 kv.2.2.1.pass
    | none =>
      Except.ok { st with warnings :=
        st.warnings ++ ["warning pipeline was not reloaded: " ++ p.2.1] }

/-- The body of `reload` for one changed pmfx source, taking the
re-deserialised `File` as input (the filesystem watch, timestamp compare
and `fs::read` around it are not modelled): merge the new data, diff
textures/views/shaders/pipelines by hash, remove or recreate exactly the
stale ones, and rebuild the active render graph when any view was removed. -/
def Pmfx.reload_file (s : Pmfx) (file : File) (fuel : Nat) : Except String Pmfx := do
  let s := merge_pmfx s file
  let reload_textures := reload_textures_of s
  let reload_views := reload_views_of s
  let reload_pipelines ← reload_pipelines_of s
  let reload_shaders := reload_shaders_of s
  let s ← s.recreate_textures reload_textures
  let rebuild_graph := decide (reload_views ≠ [])
  let s := reload_views.foldl (fun (st : Pmfx) v =>
      { st with views := aremove st.views v.2 }) s
  let s := reload_shaders.foldl (fun (st : Pmfx) sh =>
      { st with shaders := aremove st.shaders sh }) s
  let s ← reload_pipelines.foldlM reload_pipeline_step s
  if rebuild_graph then s.create_render_graph s.active_render_graph fuel
  else Except.ok s

/-! ## Claim theorems for the barrier layer -/

/-- C1: `create_texture_transition_barrier` emits a barrier iff the texture
is tracked in the state map with a state different from the requested
target: on emission it appends `barrier_<view>-<texture>` to the execution
order, stores the closed single-transition buffer under that name, and
retracks the texture at the target state; when untracked or already at the
target nothing changes.  The update makes the call idempotent, so two
consecutive calls for the same texture and target never emit two barriers
to the same state. -/
theorem create_texture_transition_barrier_spec
    (s : Pmfx) (tb : TextureBarriers) (view_name texture_name : String)
    (target : ResourceState) (tex : GfxTexture)
    (htex : s.get_texture texture_name = some tex) :
    ((alookup tb texture_name = none ∨ alookup tb texture_name = some target) →
      s.create_texture_transition_barrier tb view_name texture_name target
        = Except.ok (s, tb))
    ∧ (∀ state, alookup tb texture_name = some state → state ≠ target →
      ∃ s2, s.create_texture_transition_barrier tb view_name texture_name target
          = Except.ok (s2, ainsert (aremove tb texture_name) texture_name target)
        ∧ s2.render_graph_execute_order
            = s.render_graph_execute_order
              ++ ["barrier_" ++ view_name ++ "-" ++ texture_name]
        ∧ alookup s2.barriers ("barrier_" ++ view_name ++ "-" ++ texture_name)
            = some
              { handle := s.device.next,
                cmds := [GfxCmd.transition_barrier
                  { texture := some tex.handle, state_before := state,
                    state_after := target }],
                closed := true }
        ∧ alookup (ainsert (aremove tb texture_name) texture_name target)
            texture_name = some target
        ∧ s2.textures = s.textures)
    ∧ (∀ s2 tb2,
        s.create_texture_transition_barrier tb view_name texture_name target
          = Except.ok (s2, tb2) →
        s2.create_texture_transition_barrier tb2 view_name texture_name target
          = Except.ok (s2, tb2)) := by
  refine ⟨?_, ?_, ?_⟩
  · intro hcase
    rcases hcase with hnone | hsome
    · simp [Pmfx.create_texture_transition_barrier, hnone]
    · simp [Pmfx.create_texture_transition_barrier, hsome]
  · intro state hstate hne
    obtain ⟨tv, htv, htveq⟩ : ∃ tv, alookup s.textures texture_name = some tv
        ∧ tv.2.texture = tex := by
      unfold Pmfx.get_texture at htex
      rcases h : alookup s.textures texture_name with _ | tv
      · rw [h] at htex; cases htex
      · rw [h] at htex
        refine ⟨tv, rfl, ?_⟩
        injection htex
    refine ⟨{ s with
        render_graph_execute_order := s.render_graph_execute_order
          ++ ["barrier_" ++ view_name ++ "-" ++ texture_name],
        device := { s.device with next := s.device.next + 1 },
        barriers := ainsert s.barriers
          ("barrier_" ++ view_name ++ "-" ++ texture_name)
          { handle := s.device.next,
            cmds := [GfxCmd.transition_barrier
              { texture := some tex.handle, state_before := state,
                state_after := target }],
            closed := true } }, ?_, rfl, ?_, alookup_ainsert_self _ _ _, rfl⟩
    · simp [Pmfx.create_texture_transition_barrier, Pmfx.get_texture, hstate,
        hne, htv, htveq, GfxDevice.create_cmd_buf, GfxDevice.fresh]
    · exact alookup_ainsert_self _ _ _
  · intro s2 tb2 h
    rcases hlook : alookup tb texture_name with _ | state
    · simp only [Pmfx.create_texture_transition_barrier, hlook] at h
      cases h
      simp [Pmfx.create_texture_transition_barrier, hlook]
    · by_cases hne : state = target
      · subst hne
        simp only [Pmfx.create_texture_transition_barrier, hlook, ne_eq,
          not_true_eq_false, if_false] at h
        cases h
        simp [Pmfx.create_texture_transition_barrier, hlook]
      · obtain ⟨tv, htv, htveq⟩ : ∃ tv, alookup s.textures texture_name = some tv
            ∧ tv.2.texture = tex := by
          unfold Pmfx.get_texture at htex
          rcases hx : alookup s.textures texture_name with _ | tv
          · rw [hx] at htex; cases htex
          · rw [hx] at htex
            refine ⟨tv, rfl, ?_⟩
            injection htex
        simp only [Pmfx.create_texture_transition_barrier, Pmfx.get_texture,
          hlook, ne_eq, hne, not_false_iff, if_true, htv] at h
        cases h
        have hlook2 : alookup (ainsert (aremove tb texture_name) texture_name target)
            texture_name = some target := alookup_ainsert_self _ _ _
        simp [Pmfx.create_texture_transition_barrier, hlook2]

/-- Concrete one-texture state used by witnesses. -/
def texT : GfxTexture := { handle := 0, resolvable := false, format := 10, samples := 1 }

/-- Concrete `Pmfx` state tracking a single created texture `t`. -/
def sC1 : Pmfx :=
  { pmfx :=
      { shaders := [], pipelines := [], textures := [], views := [],
        render_graphs := [] },
    pmfx_folders := [], window_sizes := [], render_pipelines := [],
    compute_pipelines := [], shaders := [],
    textures := [("t", (1, { texture := texT, ratio := none, size := (4, 4) }))],
    views := [], barriers := [], render_graph_execute_order := [],
    view_texture_refs := [], active_render_graph := "", warnings := [],
    device := { next := 1, shader_files := [], destroyed := [] } }

/-- Witness for `create_texture_transition_barrier_spec`: a concrete state
tracking texture `t` at `ShaderResource` emits a render-target barrier. -/
theorem create_texture_transition_barrier_spec_witness :
    ∃ s2, Pmfx.create_texture_transition_barrier sC1
        [("t", ResourceState.ShaderResource)] "v" "t" ResourceState.RenderTarget
      = Except.ok (s2, ainsert (aremove [("t", ResourceState.ShaderResource)] "t")
          "t" ResourceState.RenderTarget)
      ∧ s2.render_graph_execute_order
          = sC1.render_graph_execute_order ++ ["barrier_" ++ "v" ++ "-" ++ "t"]
      ∧ alookup s2.barriers ("barrier_" ++ "v" ++ "-" ++ "t")
          = some
            { handle := sC1.device.next,
              cmds := [GfxCmd.transition_barrier
                { texture := some texT.handle,
                  state_before := ResourceState.ShaderResource,
                  state_after := ResourceState.RenderTarget }],
              closed := true }
      ∧ alookup (ainsert (aremove [("t", ResourceState.ShaderResource)] "t") "t"
          ResourceState.RenderTarget) "t" = some ResourceState.RenderTarget
      ∧ s2.textures = sC1.textures :=
  (create_texture_transition_barrier_spec sC1 [("t", ResourceState.ShaderResource)]
      "v" "t" ResourceState.RenderTarget texT rfl).2.1
    ResourceState.ShaderResource rfl (by decide)

/-- C2 counterexample: a texture whose declared usage is only
`[RenderTarget]` — neither shader-resource nor (render-target AND
shader-resource) in the claim's sense — IS seeded into the tracking map,
because the source filters with OR, not AND. -/
theorem seed_texture_barriers_counterexample :
    alookup (seed_texture_barriers
        [("t", { ratio := none, width := 4, height := 4, samples := 1,
                 format := 10, usage := [ResourceState.RenderTarget], hash := 1 })])
        "t" = some ResourceState.ShaderResource
    ∧ ¬ (ResourceState.ShaderResource ∈ [ResourceState.RenderTarget]
          ∧ (ResourceState.RenderTarget ∈ [ResourceState.RenderTarget]
             ∨ ResourceState.DepthStencil ∈ [ResourceState.RenderTarget])) := by
  constructor
  · rfl
  · decide

/-- C2 (amended): the tracking map is seeded with `name ↦ ShaderResource`
exactly for the declared textures whose usage contains shader-resource OR
render-target OR depth-stencil (the commented-out code and the surrounding
comment describe the AND filter, the live code uses OR); every seeded state
is `ShaderResource`; and a texture that is absent from the tracking map
never receives a transition barrier (the call is a no-op). -/
theorem seed_texture_barriers_spec (textures : List (String × TextureInfo))
    (name : String) :
    ((∃ st, (name, st) ∈ seed_texture_barriers textures) ↔
      (∃ info, (name, info) ∈ textures ∧
        (ResourceState.ShaderResource ∈ info.usage ∨
         ResourceState.RenderTarget ∈ info.usage ∨
         ResourceState.DepthStencil ∈ info.usage)))
    ∧ (∀ st, (name, st) ∈ seed_texture_barriers textures →
        st = ResourceState.ShaderResource)
    ∧ (∀ (s : Pmfx) (tb : TextureBarriers) (view_name : String)
        (target : ResourceState), alookup tb name = none →
        s.create_texture_transition_barrier tb view_name name target
          = Except.ok (s, tb)) := by
  refine ⟨?_, ?_, ?_⟩
  · constructor
    · rintro ⟨st, hst⟩
      simp only [seed_texture_barriers, List.mem_map, List.mem_filter] at hst
      obtain ⟨entry, ⟨hmem, hpred⟩, heq⟩ := hst
      obtain ⟨hname, -⟩ := Prod.mk.injEq .. ▸ heq
      refine ⟨entry.2, ?_, ?_⟩
      · have : entry = (name, entry.2) := by
          rw [← hname]
        rw [← this]; exact hmem
      · simp only [Bool.or_eq_true, List.elem_iff] at hpred
        tauto
    · rintro ⟨info, hmem, husage⟩
      refine ⟨ResourceState.ShaderResource, ?_⟩
      simp only [seed_texture_barriers, List.mem_map, List.mem_filter]
      refine ⟨(name, info), ⟨hmem, ?_⟩, rfl⟩
      simp only [Bool.or_eq_true, List.elem_iff]
      tauto
  · intro st hst
    simp only [seed_texture_barriers, List.mem_map, List.mem_filter] at hst
    obtain ⟨entry, -, heq⟩ := hst
    exact ((Prod.mk.injEq .. ▸ heq).2).symm
  · intro s tb view_name target hnone
    simp [Pmfx.create_texture_transition_barrier, hnone]

/-- Depth-stencil-only texture info used by the C2 witness. -/
def dInfo : TextureInfo :=
  { ratio := none, width := 4, height := 4, samples := 1, format := 10,
    usage := [ResourceState.DepthStencil], hash := 1 }

/-- Witness for `seed_texture_barriers_spec`: a depth-only texture is
seeded (OR filter), and an untracked texture name gets no barrier. -/
theorem seed_texture_barriers_spec_witness :
    (∃ st, ("d", st) ∈ seed_texture_barriers [("d", dInfo)])
    ∧ Pmfx.create_texture_transition_barrier sC1 [] "v" "t"
        ResourceState.RenderTarget = Except.ok (sC1, []) := by
  constructor
  · exact (seed_texture_barriers_spec [("d", dInfo)] "d").1.mpr
      ⟨dInfo, by decide, by decide⟩
  · exact (seed_texture_barriers_spec [] "t").2.2 sC1 [] "v"
      ResourceState.RenderTarget rfl

/-! ## Claim theorems for window-ratio texture sizing (C7) -/

/-- Texture with a 0.5 window ratio used by the C7 counterexample. -/
def texC7 : TextureInfo :=
  { ratio := some { window := "main", scale := mkRat 1 2 }, width := 0, height := 0,
    samples := 1, format := 10,
    usage := [ResourceState.RenderTarget, ResourceState.ShaderResource], hash := 1 }

/-- State with a tracked 1×1 window `main` and `texC7` declared but not
yet created. -/
def sC7 : Pmfx :=
  { pmfx :=
      { shaders := [], pipelines := [], textures := [("t", texC7)], views := [],
        render_graphs := [] },
    pmfx_folders := [], window_sizes := [("main", (1, 1))], render_pipelines := [],
    compute_pipelines := [], shaders := [], textures := [], views := [],
    barriers := [], render_graph_execute_order := [], view_texture_refs := [],
    active_render_graph := "", warnings := [],
    device := { next := 0, shader_files := [], destroyed := [] } }

/-- The state `create_texture` produces from `sC7` (size resolved to 0×0). -/
def sC7after : Pmfx :=
  { sC7 with
    textures := [("t", (texC7.hash,
      { texture := { handle := 0, resolvable := false, format := 10, samples := 1 },
        ratio := texC7.ratio, size := (0, 0) }))],
    device := { next := 1, shader_files := [], destroyed := [] } }

/-- C7 counterexample: for a tracked 1×1 window, ratio scale 0.5 and
`sample_count = 1`, `create_texture` succeeds and records a 0×0 texture —
the resolved size is below `sample_count` in both dimensions and the
created texture is degenerate, because the source clamps the *window* size
(not the resolved size) to `sample_count` before applying the scale. -/
theorem texture_ratio_size_counterexample :
    Pmfx.create_texture sC7 "t" = Except.ok sC7after
    ∧ Pmfx.get_texture_2d_size sC7after "t" = some (0, 0)
    ∧ texC7.samples = 1 ∧ (0 : Nat) < texC7.samples := by
  have hval : ((max (1 : ℚ) ((texC7.samples : Nat) : ℚ)) * mkRat 1 2).floor.toNat = 0 := by
    norm_num [texC7, Rat.floor]
  have h1 : sC7.get_texture_size_from_ratio texC7 = Except.ok (0, 0) := by
    have hshow : sC7.get_texture_size_from_ratio texC7
        = Except.ok (((max (1 : ℚ) ((texC7.samples : Nat) : ℚ)) * mkRat 1 2).floor.toNat,
            ((max (1 : ℚ) ((texC7.samples : Nat) : ℚ)) * mkRat 1 2).floor.toNat) := rfl
    rw [hshow, hval]
  have h2 : sC7.create_texture "t"
      = Except.bind (sC7.get_texture_size_from_ratio texC7) (fun size =>
          Except.ok
            { sC7 with
              textures := [("t", (texC7.hash,
                { texture :=
                    { handle := 0, resolvable := false, format := 10, samples := 1 },
                  ratio := texC7.ratio, size := size }))],
              device := { next := 1, shader_files := [], destroyed := [] } }) := rfl
  rw [h1] at h2
  exact ⟨h2.trans rfl, rfl, rfl, by decide⟩

/-- C7 (amended): with a ratio whose window is tracked at size `(w, h)`,
the final size is `(⌊max w samples * scale⌋, ⌊max h samples * scale⌋)` —
the clamp to `sample_count` applies to the window size *before* the ratio
scale, so the resolved size is only guaranteed to be at least
`sample_count` (hence non-degenerate) when `scale ≥ 1`; `create_texture`
records exactly this size. -/
theorem get_texture_size_from_ratio_spec (s : Pmfx) (tex : TextureInfo)
    (ratio : TextureSizeRatio) (w h : ℚ)
    (hr : tex.ratio = some ratio)
    (hw : alookup s.window_sizes ratio.window = some (w, h)) :
    s.get_texture_size_from_ratio tex
      = Except.ok (((max w (tex.samples : ℚ)) * ratio.scale).floor.toNat,
          ((max h (tex.samples : ℚ)) * ratio.scale).floor.toNat)
    ∧ (1 ≤ ratio.scale →
        tex.samples ≤ ((max w (tex.samples : ℚ)) * ratio.scale).floor.toNat
        ∧ tex.samples ≤ ((max h (tex.samples : ℚ)) * ratio.scale).floor.toNat)
    ∧ (∀ name, alookup s.pmfx.textures name = some tex →
        acontains s.textures name = false →
        ∃ s2, s.create_texture name = Except.ok s2
          ∧ alookup s2.textures name = some (tex.hash,
              { texture :=
                  { handle := s.device.next,
                    resolvable := decide (1 < tex.samples),
                    format := tex.format, samples := tex.samples },
                ratio := tex.ratio,
                size := (((max w (tex.samples : ℚ)) * ratio.scale).floor.toNat,
                  ((max h (tex.samples : ℚ)) * ratio.scale).floor.toNat) })) := by
  have hsize : s.get_texture_size_from_ratio tex
      = Except.ok (((max w (tex.samples : ℚ)) * ratio.scale).floor.toNat,
          ((max h (tex.samples : ℚ)) * ratio.scale).floor.toNat) := by
    simp [Pmfx.get_texture_size_from_ratio, hr, hw]
  refine ⟨hsize, ?_, ?_⟩
  · intro hscale
    have key : ∀ q : ℚ, tex.samples ≤ ((max q (tex.samples : ℚ)) * ratio.scale).floor.toNat := by
      intro q
      have h1 : (tex.samples : ℚ) ≤ max q (tex.samples : ℚ) := le_max_right _ _
      have h0 : (0 : ℚ) ≤ (tex.samples : ℚ) := by positivity
      have h2 : (tex.samples : ℚ) ≤ (max q (tex.samples : ℚ)) * ratio.scale := by
        calc (tex.samples : ℚ) = (tex.samples : ℚ) * 1 := by ring
        _ ≤ (max q (tex.samples : ℚ)) * ratio.scale := by
            apply mul_le_mul h1 hscale zero_le_one (le_trans h0 h1)
      have h3 : (tex.samples : ℤ) ≤ ((max q (tex.samples : ℚ)) * ratio.scale).floor := by
        rw [Rat.le_floor]
        exact_mod_cast h2
      omega
    exact ⟨key w, key h⟩
  · intro name hdecl hnotyet
    refine ⟨{ s with
        device := { s.device with next := s.device.next + 1 },
        textures := ainsert s.textures name (tex.hash,
          { texture :=
              { handle := s.device.next, resolvable := decide (1 < tex.samples),
                format := tex.format, samples := tex.samples },
            ratio := tex.ratio,
            size := (((max w (tex.samples : ℚ)) * ratio.scale).floor.toNat,
              ((max h (tex.samples : ℚ)) * ratio.scale).floor.toNat) }) }, ?_, ?_⟩
    · simp only [Pmfx.create_texture, hdecl, hnotyet, hsize, Bool.false_eq_true,
        if_false]
      rfl
    · exact alookup_ainsert_self _ _ _

/-- Witness for `get_texture_size_from_ratio_spec` on a concrete state:
800×600 window, scale 0.5, one sample resolves to 400×300 and is recorded
by `create_texture`. -/
theorem get_texture_size_from_ratio_spec_witness :
    ∃ s2, Pmfx.create_texture
        { sC7 with window_sizes := [("main", (800, 600))] } "t" = Except.ok s2
      ∧ alookup s2.textures "t" = some (texC7.hash,
          { texture :=
              { handle := 0, resolvable := decide (1 < texC7.samples),
                format := texC7.format, samples := texC7.samples },
            ratio := texC7.ratio,
            size := (((max (800 : ℚ) (texC7.samples : ℚ)) * mkRat 1 2).floor.toNat,
              ((max (600 : ℚ) (texC7.samples : ℚ)) * mkRat 1 2).floor.toNat) }) :=
  (get_texture_size_from_ratio_spec
      { sC7 with window_sizes := [("main", (800, 600))] } texC7
      { window := "main", scale := mkRat 1 2 } 800 600 rfl rfl).2.2 "t" rfl rfl

/-! ## Claim theorems for end-of-frame resolve/transition (C8) -/

/-- C8: when the end-of-frame pass hits a tracked texture that is not
multisample-resolvable, `create_resolve_transition` returns an error after
pushing only the placeholder name (no command buffer); the end-of-frame
step ignores that error and still attempts the plain
transition-to-shader-resource barrier, emitting it whenever the tracked
state differs from `ShaderResource` — compilation is not aborted and the
plain barrier is never silently dropped. -/
theorem resolve_transition_error_spec (s : Pmfx) (tb : TextureBarriers)
    (name : String) (st : ResourceState) (tex : GfxTexture)
    (hst : alookup tb name = some st)
    (htex : s.get_texture name = some tex)
    (hnores : tex.resolvable = false) :
    (s.create_resolve_transition tb "eof" name ResourceState.ShaderResource
      = ({ s with render_graph_execute_order :=
            s.render_graph_execute_order ++ ["barrier_resolve-" ++ "eof" ++ "-" ++ name] },
         tb, some "texture is not resolvable"))
    ∧ (st ≠ ResourceState.ShaderResource →
        eof_step (s, tb) name = Except.ok
          ({ s with
              render_graph_execute_order := s.render_graph_execute_order
                ++ ["barrier_resolve-" ++ "eof" ++ "-" ++ name]
                ++ ["barrier_" ++ "eof" ++ "-" ++ name],
              device := { s.device with next := s.device.next + 1 },
              barriers := ainsert s.barriers ("barrier_" ++ "eof" ++ "-" ++ name)
                { handle := s.device.next,
                  cmds := [GfxCmd.transition_barrier
                    { texture := some tex.handle, state_before := st,
                      state_after := ResourceState.ShaderResource }],
                  closed := true } },
            ainsert (aremove tb name) name ResourceState.ShaderResource))
    ∧ (st = ResourceState.ShaderResource →
        eof_step (s, tb) name = Except.ok
          ({ s with render_graph_execute_order := s.render_graph_execute_order
              ++ ["barrier_resolve-" ++ "eof" ++ "-" ++ name] }, tb)) := by
  obtain ⟨tv, htv, htveq⟩ : ∃ tv, alookup s.textures name = some tv
      ∧ tv.2.texture = tex := by
    unfold Pmfx.get_texture at htex
    rcases hx : alookup s.textures name with _ | tv
    · rw [hx] at htex; cases htex
    · rw [hx] at htex
      refine ⟨tv, rfl, ?_⟩
      injection htex
  have hres : s.create_resolve_transition tb "eof" name ResourceState.ShaderResource
      = ({ s with render_graph_execute_order :=
            s.render_graph_execute_order ++ ["barrier_resolve-" ++ "eof" ++ "-" ++ name] },
         tb, some "texture is not resolvable") := by
    simp [Pmfx.create_resolve_transition, hst, Pmfx.get_texture, htv, htveq, hnores]
  refine ⟨hres, ?_, ?_⟩
  · intro hne
    unfold eof_step
    rw [hres]
    simp [Pmfx.create_texture_transition_barrier, hst, hne, Pmfx.get_texture, htv,
      htveq, GfxDevice.create_cmd_buf, GfxDevice.fresh]
  · intro heq
    unfold eof_step
    rw [hres]
    subst heq
    simp [Pmfx.create_texture_transition_barrier, hst]

/-- Witness for `resolve_transition_error_spec`: in `sC1` the texture `t`
(single-sampled, hence not resolvable) tracked at `RenderTarget` yields the
resolve error and the plain eof barrier. -/
theorem resolve_transition_error_spec_witness :
    eof_step (sC1, [("t", ResourceState.RenderTarget)]) "t" = Except.ok
      ({ sC1 with
          render_graph_execute_order := sC1.render_graph_execute_order
            ++ ["barrier_resolve-" ++ "eof" ++ "-" ++ "t"]
            ++ ["barrier_" ++ "eof" ++ "-" ++ "t"],
          device := { sC1.device with next := sC1.device.next + 1 },
          barriers := ainsert sC1.barriers ("barrier_" ++ "eof" ++ "-" ++ "t")
            { handle := sC1.device.next,
              cmds := [GfxCmd.transition_barrier
                { texture := some texT.handle,
                  state_before := ResourceState.RenderTarget,
                  state_after := ResourceState.ShaderResource }],
              closed := true } },
        ainsert (aremove [("t", ResourceState.RenderTarget)] "t") "t"
          ResourceState.ShaderResource) :=
  (resolve_transition_error_spec sC1 [("t", ResourceState.RenderTarget)] "t"
      ResourceState.RenderTarget texT rfl rfl rfl).2.1 (by decide)

/-! ## Claim theorems for `execute` (C10) -/

/-- C10: `execute` submits nothing for an execution-order entry that names
neither a stored barrier nor an existing view — the submissions are exactly
those of the order filtered to known names; and when
`create_resolve_transition` fails, the only state change is the dangling
`barrier_resolve-...` name pushed onto the order (barriers, views and
textures untouched), and `execute` on the resulting state submits exactly
what it submitted before. -/
theorem execute_skips_unknown_spec (s : Pmfx) :
    (Pmfx.execute s = Pmfx.execute
      { s with render_graph_execute_order := (s.render_graph_execute_order.filter
          (fun n => acontains s.barriers n || acontains s.views n)) })
    ∧ (∀ (tb : TextureBarriers) (view_name texture_name : String)
        (target : ResourceState) (s2 : Pmfx) (tb2 : TextureBarriers) (err : String),
        s.create_resolve_transition tb view_name texture_name target
          = (s2, tb2, some err) →
        s2.barriers = s.barriers ∧ s2.views = s.views ∧ s2.textures = s.textures
        ∧ s2.render_graph_execute_order = s.render_graph_execute_order
            ++ ["barrier_resolve-" ++ view_name ++ "-" ++ texture_name]
        ∧ (acontains s.barriers
              ("barrier_resolve-" ++ view_name ++ "-" ++ texture_name) = false →
           acontains s.views
              ("barrier_resolve-" ++ view_name ++ "-" ++ texture_name) = false →
           Pmfx.execute s2 = Pmfx.execute s)) := by
  have key : ∀ (order : List String) (acc : List Submission),
      order.foldl (fun acc node =>
        match alookup s.barriers node with
        | some cb => acc ++ [Submission.barrier cb]
        | none =>
          match alookup s.views node with
          | some v => acc ++ [Submission.view v.2.1.cmd_buf]
          | none => acc) acc
      = (order.filter (fun n => acontains s.barriers n || acontains s.views n)).foldl
          (fun acc node =>
            match alookup s.barriers node with
            | some cb => acc ++ [Submission.barrier cb]
            | none =>
              match alookup s.views node with
              | some v => acc ++ [Submission.view v.2.1.cmd_buf]
              | none => acc) acc := by
    intro order
    induction order with
    | nil => intro acc; rfl
    | cons n rest ih =>
      intro acc
      rcases hb : alookup s.barriers n with _ | cb
      · rcases hv : alookup s.views n with _ | v
        · have hk : (acontains s.barriers n || acontains s.views n) = false := by
            simp [acontains, hb, hv]
          simp only [List.foldl_cons, List.filter_cons, hk, Bool.false_eq_true,
            if_false, hb, hv]
          exact ih acc
        · have hk : (acontains s.barriers n || acontains s.views n) = true := by
            simp [acontains, hb, hv]
          simp only [List.foldl_cons, List.filter_cons, hk, if_true, hb, hv]
          exact ih _
      · have hk : (acontains s.barriers n || acontains s.views n) = true := by
          simp [acontains, hb]
        simp only [List.foldl_cons, List.filter_cons, hk, if_true, hb]
        exact ih _
  constructor
  · exact key s.render_graph_execute_order []
  · intro tb view_name texture_name target s2 tb2 err h
    have hout : s2.barriers = s.barriers ∧ s2.views = s.views ∧ s2.textures = s.textures
        ∧ s2.render_graph_execute_order = s.render_graph_execute_order
            ++ ["barrier_resolve-" ++ view_name ++ "-" ++ texture_name] := by
      unfold Pmfx.create_resolve_transition at h
      rcases hst : alookup tb texture_name with _ | state
      · rw [hst] at h
        cases h
      · rw [hst] at h
        simp only at h
        rcases htex : Pmfx.get_texture { s with render_graph_execute_order :=
            s.render_graph_execute_order
              ++ ["barrier_resolve-" ++ view_name ++ "-" ++ texture_name] }
            texture_name with _ | tex
        · rw [htex] at h
          cases h
        · rw [htex] at h
          by_cases hres : tex.resolvable
          · simp only [hres, not_true_eq_false, Bool.false_eq_true, if_false] at h
            cases h
          · simp only [hres, not_false_iff, Bool.not_eq_true,
              Bool.false_eq_true] at h
            rw [if_pos (by simp [hres])] at h
            cases h
            exact ⟨rfl, rfl, rfl, rfl⟩
    obtain ⟨hbar, hviews, htex2, horder⟩ := hout
    refine ⟨hbar, hviews, htex2, horder, ?_⟩
    intro hnb hnv
    have hnb2 : alookup s.barriers
        ("barrier_resolve-" ++ view_name ++ "-" ++ texture_name) = none := by
      rcases hx : alookup s.barriers
          ("barrier_resolve-" ++ view_name ++ "-" ++ texture_name) with _ | c
      · rfl
      · rw [acontains, hx] at hnb
        cases hnb
    have hnv2 : alookup s.views
        ("barrier_resolve-" ++ view_name ++ "-" ++ texture_name) = none := by
      rcases hx : alookup s.views
          ("barrier_resolve-" ++ view_name ++ "-" ++ texture_name) with _ | v
      · rfl
      · rw [acontains, hx] at hnv
        cases hnv
    unfold Pmfx.execute
    rw [hbar, hviews, horder, List.foldl_append]
    simp [hnb2, hnv2]

/-- Witness for `execute_skips_unknown_spec`: the failing resolve on `sC1`
leaves barriers/views untouched and `execute` unchanged. -/
theorem execute_skips_unknown_spec_witness :
    Pmfx.execute
        (Pmfx.create_resolve_transition sC1 [("t", ResourceState.RenderTarget)]
          "eof" "t" ResourceState.ShaderResource).1
      = Pmfx.execute sC1 :=
  ((execute_skips_unknown_spec sC1).2 [("t", ResourceState.RenderTarget)] "eof" "t"
      ResourceState.ShaderResource _ _ "texture is not resolvable" rfl).2.2.2.2
    rfl rfl

/-! ## Claim theorems for the scheduling loop (C3) -/

/-- Render-target texture used by the scheduling scenarios. -/
def tRt : TextureInfo :=
  { ratio := none, width := 4, height := 4, samples := 1, format := 10,
    usage := [ResourceState.RenderTarget, ResourceState.ShaderResource], hash := 1 }

/-- pmfx data with graph `g` iterating `c`, then `b` (depends on `a` and
`c`), then `a`; and graph `g2` whose single node depends on a node absent
from the graph. -/
def fileC3 : File :=
  { shaders := [], pipelines := [],
    textures := [("rt", tRt)],
    views := [("v",
      { render_target := ["rt"], depth_stencil := [], camera := "cam", hash := 2 })],
    render_graphs :=
      [("g",
        [("c", { view := "v", pipelines := none, depends_on := none }),
         ("b", { view := "v", pipelines := none, depends_on := some ["a", "c"] }),
         ("a", { view := "v", pipelines := none, depends_on := none })]),
       ("g2",
        [("n", { view := "v", pipelines := none,
                 depends_on := some ["missing_node"] })])] }

/-- Fresh `Pmfx` state holding `fileC3`. -/
def sC3 : Pmfx :=
  { pmfx := fileC3, pmfx_folders := [], window_sizes := [], render_pipelines := [],
    compute_pipelines := [], shaders := [], textures := [], views := [],
    barriers := [], render_graph_execute_order := [], view_texture_refs := [],
    active_render_graph := "", warnings := [],
    device := { next := 0, shader_files := [], destroyed := [] } }

/-- C3: evaluating `create_render_graph` at the failing input.  Node `b`
declares `depends_on = ["a", "c"]`; `a` names a node present in the graph
that is still unscheduled when `b` is examined, yet `b` is scheduled before
`a` — because the source folds a single `passes` flag over the entries,
only the last entry (`c`, already scheduled) decides.  The missing-
dependency half of the claim does hold: graph `g2`'s node depends on an
absent node, a warning is logged, the node is still scheduled and
compilation completes. -/
theorem sched_depends_on_last_entry_bug :
    (∃ s2, Pmfx.create_render_graph sC3 "g" 4 = Except.ok s2
      ∧ s2.render_graph_execute_order
          = ["barrier_v-rt", "c", "b", "a", "barrier_resolve-eof-rt", "barrier_eof-rt"]
      ∧ acontains
          [("c", ({ view := "v", pipelines := none, depends_on := none } : GraphViewInfo)),
           ("b", { view := "v", pipelines := none, depends_on := some ["a", "c"] }),
           ("a", { view := "v", pipelines := none, depends_on := none })] "a" = true
      ∧ s2.render_graph_execute_order.indexOf "b"
          < s2.render_graph_execute_order.indexOf "a")
    ∧ (∃ s3, Pmfx.create_render_graph sC3 "g2" 4 = Except.ok s3
      ∧ s3.warnings = ["view v missing dependency missing_node. ignoring"]
      ∧ "n" ∈ s3.render_graph_execute_order) := by
  constructor
  · exact ⟨_, rfl, rfl, rfl, by decide⟩
  · exact ⟨_, rfl, rfl, by decide⟩

/-! ## Idempotent-creation infrastructure (C5) -/

theorem except_bind_ok {E A B : Type} {u : Except E A} {g : A → Except E B}
    {r : B} (h : (u >>= g) = Except.ok r) :
    ∃ a, u = Except.ok a ∧ g a = Except.ok r := by
  cases u with
  | ok a => exact ⟨a, rfl, h⟩
  | error e => exact absurd h (by intro hbad; cases hbad)

theorem acontains_ainsert_of {κ α : Type} [DecidableEq κ] (m : List (κ × α))
    (k : κ) (v : α) (k' : κ) (h : acontains m k' = true) :
    acontains (ainsert m k v) k' = true := by
  by_cases hk : k' = k
  · subst hk
    simp [acontains, alookup_ainsert_self]
  · rw [acontains, alookup_ainsert_ne m k k' v hk]
    exact h

/-- `create_shader` succeeds leaving every already-built shader in place. -/
theorem create_shader_mono (s : Pmfx) (file : Option String) (s1 : Pmfx)
    (h : s.create_shader file = Except.ok s1) (f : String)
    (hf : acontains s.shaders f = true) : acontains s1.shaders f = true := by
  match file with
  | none =>
    simp only [Pmfx.create_shader] at h
    cases h
    exact hf
  | some g =>
    simp only [Pmfx.create_shader] at h
    by_cases hc : acontains s.shaders g
    · rw [if_pos hc] at h
      cases h
      exact hf
    · rw [if_neg hc] at h
      by_cases hm : g ∈ s.device.shader_files
      · rw [if_pos hm] at h
        rcases hh : alookup s.pmfx.shaders g with _ | hash
        · rw [hh] at h
          cases h
        · rw [hh] at h
          cases h
          exact acontains_ainsert_of _ _ _ _ hf
      · rw [if_neg hm] at h
        cases h

/-- After a successful `create_shader some f`, `f` is built. -/
theorem create_shader_this (s : Pmfx) (g : String) (s1 : Pmfx)
    (h : s.create_shader (some g) = Except.ok s1) :
    acontains s1.shaders g = true := by
  simp only [Pmfx.create_shader] at h
  by_cases hc : acontains s.shaders g
  · rw [if_pos hc] at h
    cases h
    exact hc
  · rw [if_neg hc] at h
    by_cases hm : g ∈ s.device.shader_files
    · rw [if_pos hm] at h
      rcases hh : alookup s.pmfx.shaders g with _ | hash
      · rw [hh] at h
        cases h
      · rw [hh] at h
        cases h
        simp [acontains, alookup_ainsert_self]
    · rw [if_neg hm] at h
      cases h

/-- `create_shader` is a no-op when the file is absent or already built. -/
theorem create_shader_skip (s : Pmfx) (file : Option String)
    (h : ∀ g, file = some g → acontains s.shaders g = true) :
    s.create_shader file = Except.ok s := by
  match file with
  | none => rfl
  | some g =>
    simp only [Pmfx.create_shader]
    rw [if_pos (h g rfl)]

/-- `create_shader` never touches the pmfx data, folders, textures, views
or pipeline maps. -/
theorem create_shader_fields (s : Pmfx) (file : Option String) (s1 : Pmfx)
    (h : s.create_shader file = Except.ok s1) :
    s1.pmfx = s.pmfx ∧ s1.pmfx_folders = s.pmfx_folders
    ∧ s1.render_pipelines = s.render_pipelines
    ∧ s1.compute_pipelines = s.compute_pipelines
    ∧ s1.textures = s.textures ∧ s1.views = s.views
    ∧ s1.device.shader_files = s.device.shader_files := by
  match file with
  | none =>
    simp only [Pmfx.create_shader] at h
    cases h
    exact ⟨rfl, rfl, rfl, rfl, rfl, rfl, rfl⟩
  | some g =>
    simp only [Pmfx.create_shader] at h
    by_cases hc : acontains s.shaders g
    · rw [if_pos hc] at h
      cases h
      exact ⟨rfl, rfl, rfl, rfl, rfl, rfl, rfl⟩
    · rw [if_neg hc] at h
      by_cases hm : g ∈ s.device.shader_files
      · rw [if_pos hm] at h
        rcases hh : alookup s.pmfx.shaders g with _ | hash
        · rw [hh] at h
          cases h
        · rw [hh] at h
          cases h
          exact ⟨rfl, rfl, rfl, rfl, rfl, rfl, rfl⟩
      · rw [if_neg hm] at h
        cases h

theorem shader_step_mono (s : Pmfx) (perm : Nat × Pipeline) (s1 : Pmfx)
    (h : shader_step s perm = Except.ok s1) (f : String)
    (hf : acontains s.shaders f = true) : acontains s1.shaders f = true := by
  unfold shader_step at h
  obtain ⟨a, ha, h⟩ := except_bind_ok h
  obtain ⟨b, hb, h⟩ := except_bind_ok h
  exact create_shader_mono _ _ _ h f
    (create_shader_mono _ _ _ hb f (create_shader_mono _ _ _ ha f hf))

theorem shader_step_built (s : Pmfx) (perm : Nat × Pipeline) (s1 : Pmfx)
    (h : shader_step s perm = Except.ok s1) :
    (∀ g, perm.2.vs = some g → acontains s1.shaders g = true)
    ∧ (∀ g, perm.2.ps = some g → acontains s1.shaders g = true)
    ∧ (∀ g, perm.2.cs = some g → acontains s1.shaders g = true) := by
  unfold shader_step at h
  obtain ⟨a, ha, h⟩ := except_bind_ok h
  obtain ⟨b, hb, h⟩ := except_bind_ok h
  refine ⟨?_, ?_, ?_⟩
  · intro g hg
    rw [hg] at ha
    exact create_shader_mono _ _ _ h g
      (create_shader_mono _ _ _ hb g (create_shader_this _ _ _ ha))
  · intro g hg
    rw [hg] at hb
    exact create_shader_mono _ _ _ h g (create_shader_this _ _ _ hb)
  · intro g hg
    rw [hg] at h
    exact create_shader_this _ _ _ h

theorem shader_step_skip (s : Pmfx) (perm : Nat × Pipeline)
    (hvs : ∀ g, perm.2.vs = some g → acontains s.shaders g = true)
    (hps : ∀ g, perm.2.ps = some g → acontains s.shaders g = true)
    (hcs : ∀ g, perm.2.cs = some g → acontains s.shaders g = true) :
    shader_step s perm = Except.ok s := by
  unfold shader_step
  rw [create_shader_skip s perm.2.vs hvs]
  show (Except.ok s >>= fun st => _) = Except.ok s
  rw [show ∀ (f : Pmfx → Except String Pmfx), (Except.ok s >>= f) = f s
      from fun f => rfl]
  rw [create_shader_skip s perm.2.ps hps]
  rw [show ∀ (f : Pmfx → Except String Pmfx), (Except.ok s >>= f) = f s
      from fun f => rfl]
  exact create_shader_skip s perm.2.cs hcs

theorem shader_step_fields (s : Pmfx) (perm : Nat × Pipeline) (s1 : Pmfx)
    (h : shader_step s perm = Except.ok s1) :
    s1.pmfx = s.pmfx ∧ s1.pmfx_folders = s.pmfx_folders
    ∧ s1.render_pipelines = s.render_pipelines
    ∧ s1.compute_pipelines = s.compute_pipelines
    ∧ s1.textures = s.textures ∧ s1.views = s.views
    ∧ s1.device.shader_files = s.device.shader_files := by
  unfold shader_step at h
  obtain ⟨a, ha, h⟩ := except_bind_ok h
  obtain ⟨b, hb, h⟩ := except_bind_ok h
  obtain ⟨p1, p2, p3, p4, p5, p6, p7⟩ := create_shader_fields _ _ _ ha
  obtain ⟨q1, q2, q3, q4, q5, q6, q7⟩ := create_shader_fields _ _ _ hb
  obtain ⟨r1, r2, r3, r4, r5, r6, r7⟩ := create_shader_fields _ _ _ h
  exact ⟨r1.trans (q1.trans p1), r2.trans (q2.trans p2), r3.trans (q3.trans p3),
    r4.trans (q4.trans p4), r5.trans (q5.trans p5), r6.trans (q6.trans p6),
    r7.trans (q7.trans p7)⟩

theorem shader_fold_mono (l : List (Nat × Pipeline)) :
    ∀ (s s1 : Pmfx), l.foldlM shader_step s = Except.ok s1 →
    ∀ f, acontains s.shaders f = true → acontains s1.shaders f = true := by
  induction l with
  | nil =>
    intro s s1 h f hf
    cases h
    exact hf
  | cons p rest ih =>
    intro s s1 h f hf
    rw [List.foldlM_cons] at h
    obtain ⟨a, ha, h⟩ := except_bind_ok h
    exact ih a s1 h f (shader_step_mono _ _ _ ha f hf)

theorem shader_fold_built (l : List (Nat × Pipeline)) :
    ∀ (s s1 : Pmfx), l.foldlM shader_step s = Except.ok s1 →
    ∀ perm ∈ l,
      (∀ g, perm.2.vs = some g → acontains s1.shaders g = true)
      ∧ (∀ g, perm.2.ps = some g → acontains s1.shaders g = true)
      ∧ (∀ g, perm.2.cs = some g → acontains s1.shaders g = true) := by
  induction l with
  | nil =>
    intro s s1 h perm hmem
    cases hmem
  | cons p rest ih =>
    intro s s1 h perm hmem
    rw [List.foldlM_cons] at h
    obtain ⟨a, ha, h2⟩ := except_bind_ok h
    rcases List.mem_cons.mp hmem with hp | hp
    · subst hp
      obtain ⟨b1, b2, b3⟩ := shader_step_built _ _ _ ha
      exact ⟨fun g hg => shader_fold_mono rest a s1 h2 g (b1 g hg),
        fun g hg => shader_fold_mono rest a s1 h2 g (b2 g hg),
        fun g hg => shader_fold_mono rest a s1 h2 g (b3 g hg)⟩
    · exact ih a s1 h2 perm hp

theorem shader_fold_skip (l : List (Nat × Pipeline)) (s : Pmfx)
    (h : ∀ perm ∈ l,
      (∀ g, perm.2.vs = some g → acontains s.shaders g = true)
      ∧ (∀ g, perm.2.ps = some g → acontains s.shaders g = true)
      ∧ (∀ g, perm.2.cs = some g → acontains s.shaders g = true)) :
    l.foldlM shader_step s = Except.ok s := by
  induction l with
  | nil => rfl
  | cons p rest ih =>
    rw [List.foldlM_cons]
    obtain ⟨h1, h2, h3⟩ := h p (by simp)
    rw [shader_step_skip s p h1 h2 h3]
    rw [show ∀ (f : Pmfx → Except String Pmfx), (Except.ok s >>= f) = f s
        from fun f => rfl]
    exact ih (fun perm hm => h perm (by simp [hm]))

theorem shader_fold_fields (l : List (Nat × Pipeline)) :
    ∀ (s s1 : Pmfx), l.foldlM shader_step s = Except.ok s1 →
    s1.pmfx = s.pmfx ∧ s1.pmfx_folders = s.pmfx_folders
    ∧ s1.render_pipelines = s.render_pipelines
    ∧ s1.compute_pipelines = s.compute_pipelines
    ∧ s1.textures = s.textures ∧ s1.views = s.views
    ∧ s1.device.shader_files = s.device.shader_files := by
  induction l with
  | nil =>
    intro s s1 h
    cases h
    exact ⟨rfl, rfl, rfl, rfl, rfl, rfl, rfl⟩
  | cons p rest ih =>
    intro s s1 h
    rw [List.foldlM_cons] at h
    obtain ⟨a, ha, h⟩ := except_bind_ok h
    obtain ⟨p1, p2, p3, p4, p5, p6, p7⟩ := shader_step_fields _ _ _ ha
    obtain ⟨q1, q2, q3, q4, q5, q6, q7⟩ := ih a s1 h
    exact ⟨q1.trans p1, q2.trans p2, q3.trans p3, q4.trans p4, q5.trans p5,
      q6.trans p6, q7.trans p7⟩

theorem pso_step_fields (fmt : Nat) (pn : String) (st : Pmfx)
    (perm : Nat × Pipeline) (st1 : Pmfx)
    (h : pso_step fmt pn st perm = Except.ok st1) :
    st1.pmfx = st.pmfx ∧ st1.pmfx_folders = st.pmfx_folders
    ∧ st1.shaders = st.shaders ∧ st1.textures = st.textures
    ∧ st1.views = st.views ∧ st1.device.shader_files = st.device.shader_files := by
  unfold pso_step GfxDevice.fresh at h
  simp only [] at h
  split at h
  all_goals try split at h
  all_goals try split at h
  all_goals try split at h
  all_goals cases h
  all_goals exact ⟨rfl, rfl, rfl, rfl, rfl, rfl⟩

theorem pso_step_inv (fmt : Nat) (pn : String) (st : Pmfx)
    (perm : Nat × Pipeline) (st1 : Pmfx)
    (h : pso_step fmt pn st perm = Except.ok st1)
    (hinv : ∃ fp, alookup st.render_pipelines fmt = some fp
      ∧ acontains fp pn = true) :
    ∃ fp, alookup st1.render_pipelines fmt = some fp ∧ acontains fp pn = true := by
  unfold pso_step GfxDevice.fresh at h
  simp only [] at h
  split at h
  · cases h
    exact hinv
  · split at h
    · cases h
    · split at h
      · cases h
      · split at h
        · cases h
        · cases h
          refine ⟨_, alookup_ainsert_self _ _ _, ?_⟩
          simp [acontains, alookup_ainsert_self]

theorem pso_fold_fields (fmt : Nat) (pn : String) (l : List (Nat × Pipeline)) :
    ∀ (s s1 : Pmfx), l.foldlM (pso_step fmt pn) s = Except.ok s1 →
    s1.pmfx = s.pmfx ∧ s1.pmfx_folders = s.pmfx_folders
    ∧ s1.shaders = s.shaders ∧ s1.textures = s.textures
    ∧ s1.views = s.views ∧ s1.device.shader_files = s.device.shader_files := by
  induction l with
  | nil =>
    intro s s1 h
    cases h
    exact ⟨rfl, rfl, rfl, rfl, rfl, rfl⟩
  | cons p rest ih =>
    intro s s1 h
    rw [List.foldlM_cons] at h
    obtain ⟨a, ha, h2⟩ := except_bind_ok h
    obtain ⟨p1, p2, p3, p4, p5, p6⟩ := pso_step_fields _ _ _ _ _ ha
    obtain ⟨q1, q2, q3, q4, q5, q6⟩ := ih a s1 h2
    exact ⟨q1.trans p1, q2.trans p2, q3.trans p3, q4.trans p4, q5.trans p5,
      q6.trans p6⟩

theorem pso_fold_inv (fmt : Nat) (pn : String) (l : List (Nat × Pipeline)) :
    ∀ (s s1 : Pmfx), l.foldlM (pso_step fmt pn) s = Except.ok s1 →
    (∃ fp, alookup s.render_pipelines fmt = some fp ∧ acontains fp pn = true) →
    ∃ fp, alookup s1.render_pipelines fmt = some fp ∧ acontains fp pn = true := by
  induction l with
  | nil =>
    intro s s1 h hinv
    cases h
    exact hinv
  | cons p rest ih =>
    intro s s1 h hinv
    rw [List.foldlM_cons] at h
    obtain ⟨a, ha, h2⟩ := except_bind_ok h
    exact ih a s1 h2 (pso_step_inv _ _ _ _ _ ha hinv)

/-- After a successful `create_view` with the creation branch taken, the
graph view name is present in the view map. -/
theorem create_view_ok_contains (s : Pmfx) (vn gvn : String)
    (info : GraphViewInfo) (s1 : Pmfx) (pv : ViewInfo)
    (hnc : acontains s.views gvn = false)
    (hpv : alookup s.pmfx.views vn = some pv)
    (h : s.create_view vn gvn info = Except.ok s1) :
    acontains s1.views gvn = true := by
  unfold Pmfx.create_view at h
  rw [if_neg (by simp [hnc]), hpv] at h
  obtain ⟨a, -, h⟩ := except_bind_ok h
  obtain ⟨b, -, h⟩ := except_bind_ok h
  obtain ⟨c, -, h⟩ := except_bind_ok h
  obtain ⟨d, -, h⟩ := except_bind_ok h
  simp only [] at h
  split at h
  all_goals try split at h
  all_goals try cases h
  all_goals
    obtain ⟨e, -, h2⟩ := except_bind_ok h
  all_goals
    obtain ⟨f, -, h3⟩ := except_bind_ok h2
  all_goals cases h3
  all_goals simp [acontains, alookup_ainsert_self]

theorem ensure_format_entry_fields (fmt : Nat) (s : Pmfx) :
    (ensure_format_entry fmt s).pmfx = s.pmfx
    ∧ (ensure_format_entry fmt s).pmfx_folders = s.pmfx_folders
    ∧ (ensure_format_entry fmt s).shaders = s.shaders := by
  unfold ensure_format_entry
  by_cases hc : acontains s.render_pipelines fmt = true
  · rw [if_pos hc]
    exact ⟨rfl, rfl, rfl⟩
  · rw [if_neg hc]
    exact ⟨rfl, rfl, rfl⟩

/-- `create_pipeline` is a no-op when the shaders are already built and the
pipeline already has an entry for the pass format. -/
theorem create_pipeline_skip (s : Pmfx) (pn : String) (pass : RenderPass)
    (perms : PipelinePermutations)
    (hpp : alookup s.pmfx.pipelines pn = some perms)
    (hfl : ∃ f, alookup s.pmfx_folders pn = some f)
    (hbuilt : ∀ perm ∈ perms,
      (∀ g, perm.2.vs = some g → acontains s.shaders g = true)
      ∧ (∀ g, perm.2.ps = some g → acontains s.shaders g = true)
      ∧ (∀ g, perm.2.cs = some g → acontains s.shaders g = true))
    (hrp : ∃ fp, alookup s.render_pipelines pass.format_hash = some fp
      ∧ acontains fp pn = true) :
    s.create_pipeline pn pass = Except.ok s := by
  obtain ⟨f, hf⟩ := hfl
  obtain ⟨fp, hfp, hfppn⟩ := hrp
  have hcont : acontains s.render_pipelines pass.format_hash = true := by
    simp [acontains, hfp]
  have hens : ensure_format_entry pass.format_hash s = s := by
    unfold ensure_format_entry
    rw [if_pos hcont]
  unfold Pmfx.create_pipeline
  simp only [hpp, hf, shader_fold_skip perms s hbuilt, hens, hcont, if_true,
    hfp, hfppn, bind, Except.bind]

/-- C5: creation is idempotent.  A successful `create_texture` for a name,
`create_view` for a graph-view name, or `create_pipeline` for a pipeline
name and pass format leaves the state fixed under an identical second call:
no new backend handles are allocated (the device counter is part of the
state) and every stored map entry is unchanged. -/
theorem creation_idempotent :
    (∀ (s : Pmfx) (name : String) (s1 : Pmfx),
        s.create_texture name = Except.ok s1 → s1.create_texture name = Except.ok s1)
    ∧ (∀ (s : Pmfx) (view_name graph_view_name : String) (info : GraphViewInfo)
        (s1 : Pmfx),
        s.create_view view_name graph_view_name info = Except.ok s1 →
        s1.create_view view_name graph_view_name info = Except.ok s1)
    ∧ (∀ (s : Pmfx) (pipeline_name : String) (pass : RenderPass) (s1 : Pmfx),
        s.create_pipeline pipeline_name pass = Except.ok s1 →
        s1.create_pipeline pipeline_name pass = Except.ok s1) := by
  refine ⟨?_, ?_, ?_⟩
  · intro s name s1 h
    unfold Pmfx.create_texture at h ⊢
    rcases hd : alookup s.pmfx.textures name with _ | tex
    · rw [hd] at h
      cases h
      simp [hd]
    · rw [hd] at h
      try simp only [] at h
      by_cases hc : acontains s.textures name = true
      · rw [if_pos hc] at h
        cases h
        simp [hd, hc]
      · rw [if_neg hc] at h
        obtain ⟨sz, hsz, h2⟩ := except_bind_ok h
        simp only [GfxDevice.create_texture, GfxDevice.fresh] at h2
        cases h2
        simp [hd, acontains, alookup_ainsert_self]
  · intro s vn gvn info s1 h
    by_cases hc : acontains s.views gvn = true
    · have h2 : s1 = s := by
        unfold Pmfx.create_view at h
        rw [if_pos hc] at h
        cases h
        rfl
      subst h2
      unfold Pmfx.create_view
      rw [if_pos hc]
    · rcases hpv : alookup s.pmfx.views vn with _ | pv
      · have h2 : s1 = s := by
          unfold Pmfx.create_view at h
          rw [if_neg hc, hpv] at h
          cases h
          rfl
        subst h2
        unfold Pmfx.create_view
        rw [if_neg hc, hpv]
      · have hc1 : acontains s1.views gvn = true :=
          create_view_ok_contains s vn gvn info s1 pv (by simpa using hc) hpv h
        unfold Pmfx.create_view
        rw [if_pos hc1]
  · intro s pn pass s1 h
    unfold Pmfx.create_pipeline at h
    rcases hpp : alookup s.pmfx.pipelines pn with _ | perms
    · rw [hpp] at h
      cases h
    · rw [hpp] at h
      try simp only [] at h
      rcases hfl : alookup s.pmfx_folders pn with _ | fl
      · rw [hfl] at h
        obtain ⟨x, hx, -⟩ := except_bind_ok h
        cases hx
      · rw [hfl] at h
        obtain ⟨fl2, -, h⟩ := except_bind_ok h
        obtain ⟨s2, hs2, h⟩ := except_bind_ok h
        try simp only [] at h
        obtain ⟨e1, e2, e3, e4, e5, e6, e7⟩ := shader_fold_fields perms s s2 hs2
        have hbuilt2 := shader_fold_built perms s s2 hs2
        obtain ⟨n1, n2, n3⟩ := ensure_format_entry_fields pass.format_hash s2
        split at h
        · cases h
        · rename_i fp hfp
          by_cases hfppn : acontains fp pn = true
          · rw [if_pos hfppn] at h
            cases h
            refine create_pipeline_skip _ pn pass perms ?_ ⟨fl, ?_⟩ ?_ ⟨fp, hfp, hfppn⟩
            · rw [n1, e1]
              exact hpp
            · rw [n2, e2]
              exact hfl
            · intro perm hm
              rw [n3]
              exact hbuilt2 perm hm
          · rw [if_neg hfppn] at h
            have hinv0 : ∃ fp2, alookup
                (ainsert (ensure_format_entry pass.format_hash s2).render_pipelines
                  pass.format_hash (ainsert fp pn [])) pass.format_hash = some fp2
                ∧ acontains fp2 pn = true := by
              refine ⟨ainsert fp pn [], alookup_ainsert_self _ _ _, ?_⟩
              simp [acontains, alookup_ainsert_self]
            have hrp1 := pso_fold_inv pass.format_hash pn perms _ s1 h hinv0
            obtain ⟨q1, q2, q3, q4, q5, q6⟩ :=
              pso_fold_fields pass.format_hash pn perms _ s1 h
            refine create_pipeline_skip s1 pn pass perms ?_ ⟨fl, ?_⟩ ?_ hrp1
            · rw [q1]
              show alookup (ensure_format_entry pass.format_hash s2).pmfx.pipelines pn
                = some perms
              rw [n1, e1]
              exact hpp
            · rw [q2]
              show alookup (ensure_format_entry pass.format_hash s2).pmfx_folders pn
                = some fl
              rw [n2, e2]
              exact hfl
            · intro perm hm
              have hsh : s1.shaders = s2.shaders := by
                rw [q3]
                show (ensure_format_entry pass.format_hash s2).shaders = s2.shaders
                rw [n3]
              rw [hsh]
              exact hbuilt2 perm hm


/-- pmfx data for the pipeline-idempotence witness. -/
def fileC5 : File :=
  { shaders := [("vs", 11), ("ps", 12)],
    pipelines :=
      [("p", [(0,
        { vs := some "vs", ps := some "ps", cs := none,
          vertex_layout := some (), hash := 100 })])],
    textures := [], views := [], render_graphs := [] }

def sC5p : Pmfx :=
  { pmfx := fileC5, pmfx_folders := [("p", "data/shaders")], window_sizes := [],
    render_pipelines := [], compute_pipelines := [], shaders := [], textures := [],
    views := [], barriers := [], render_graph_execute_order := [],
    view_texture_refs := [], active_render_graph := "", warnings := [],
    device := { next := 0, shader_files := ["vs", "ps"], destroyed := [] } }

def passC5 : RenderPass := { handle := 99, format_hash := 7 }

/-- The state after the first `create_texture`/`create_view`/
`create_pipeline` call of the witness scenarios. -/
def sC5t : Pmfx :=
  match sC3.create_texture "rt" with
  | Except.ok s1 => s1
  | Except.error _ => sC3

def sC5v : Pmfx :=
  match sC3.create_view "v" "n" { view := "v", pipelines := none, depends_on := none } with
  | Except.ok s1 => s1
  | Except.error _ => sC3

def sC5pl : Pmfx :=
  match sC5p.create_pipeline "p" passC5 with
  | Except.ok s1 => s1
  | Except.error _ => sC5p

/-- Witness for `creation_idempotent`: concrete second calls are no-ops. -/
theorem creation_idempotent_witness :
    sC5t.create_texture "rt" = Except.ok sC5t
    ∧ sC5v.create_view "v" "n" { view := "v", pipelines := none, depends_on := none }
        = Except.ok sC5v
    ∧ sC5pl.create_pipeline "p" passC5 = Except.ok sC5pl :=
  ⟨creation_idempotent.1 sC3 "rt" sC5t (by rfl),
   creation_idempotent.2.1 sC3 "v" "n"
     { view := "v", pipelines := none, depends_on := none } sC5v (by rfl),
   creation_idempotent.2.2 sC5p "p" passC5 sC5pl (by rfl)⟩

/-! ## Entry-preservation infrastructure (C6) -/

/-- Every entry of the four long-lived object maps present in `s` is still
present, with the same stored value (hence the same backend handle), in
`s1`. -/
def preserves (s s1 : Pmfx) : Prop :=
  (∀ k v, alookup s.textures k = some v → alookup s1.textures k = some v)
  ∧ (∀ k v, alookup s.views k = some v → alookup s1.views k = some v)
  ∧ (∀ k v, alookup s.shaders k = some v → alookup s1.shaders k = some v)
  ∧ (∀ fmt fp, alookup s.render_pipelines fmt = some fp →
      ∃ fp1, alookup s1.render_pipelines fmt = some fp1
        ∧ ∀ n e, alookup fp n = some e → alookup fp1 n = some e)

theorem preserves_refl (s : Pmfx) : preserves s s :=
  ⟨fun _ _ hv => hv, fun _ _ hv => hv, fun _ _ hv => hv,
   fun _ fp hfp => ⟨fp, hfp, fun _ _ he => he⟩⟩

theorem preserves_trans {a b c : Pmfx} (h1 : preserves a b) (h2 : preserves b c) :
    preserves a c := by
  obtain ⟨t1, v1, s1, r1⟩ := h1
  obtain ⟨t2, v2, s2, r2⟩ := h2
  refine ⟨fun k v hv => t2 k v (t1 k v hv), fun k v hv => v2 k v (v1 k v hv),
    fun k v hv => s2 k v (s1 k v hv), ?_⟩
  intro fmt fp hfp
  obtain ⟨fp1, hfp1, hin1⟩ := r1 fmt fp hfp
  obtain ⟨fp2, hfp2, hin2⟩ := r2 fmt fp1 hfp1
  exact ⟨fp2, hfp2, fun n e he => hin2 n e (hin1 n e he)⟩

theorem preserves_of_eq {s s1 : Pmfx} (h1 : s1.textures = s.textures)
    (h2 : s1.views = s.views) (h3 : s1.shaders = s.shaders)
    (h4 : s1.render_pipelines = s.render_pipelines) : preserves s s1 := by
  refine ⟨fun k v hv => ?_, fun k v hv => ?_, fun k v hv => ?_, fun fmt fp hfp => ?_⟩
  · rw [h1]; exact hv
  · rw [h2]; exact hv
  · rw [h3]; exact hv
  · exact ⟨fp, by rw [h4]; exact hfp, fun _ _ he => he⟩

/-- Inserting an absent key keeps every present entry intact. -/
theorem alookup_ainsert_preserve {κ α : Type} [DecidableEq κ] (m : List (κ × α))
    (k' : κ) (v' : α) (hk' : acontains m k' = false) (k : κ) (v : α)
    (h : alookup m k = some v) : alookup (ainsert m k' v') k = some v := by
  have hne : k ≠ k' := by
    intro he
    subst he
    have : acontains m k = true := (acontains_iff m k).mpr ⟨v, h⟩
    rw [hk'] at this
    cases this
  rw [alookup_ainsert_ne m k' k v' hne]
  exact h

/-- `create_texture` only ever inserts an absent key into `textures`. -/
theorem create_texture_preserves (s : Pmfx) (name : String) (s1 : Pmfx)
    (h : s.create_texture name = Except.ok s1) :
    preserves s s1 ∧ s1.views = s.views ∧ s1.shaders = s.shaders
      ∧ s1.render_pipelines = s.render_pipelines := by
  unfold Pmfx.create_texture at h
  rcases hd : alookup s.pmfx.textures name with _ | tex
  · rw [hd] at h
    cases h
    exact ⟨preserves_refl _, rfl, rfl, rfl⟩
  · rw [hd] at h
    try simp only [] at h
    by_cases hc : acontains s.textures name = true
    · rw [if_pos hc] at h
      cases h
      exact ⟨preserves_refl _, rfl, rfl, rfl⟩
    · rw [if_neg hc] at h
      obtain ⟨sz, hsz, h2⟩ := except_bind_ok h
      simp only [GfxDevice.create_texture, GfxDevice.fresh] at h2
      cases h2
      refine ⟨⟨?_, fun _ _ hv => hv, fun _ _ hv => hv,
        fun _ fp hfp => ⟨fp, hfp, fun _ _ he => he⟩⟩, rfl, rfl, rfl⟩
      intro k v hv
      exact alookup_ainsert_preserve _ _ _ (by simpa using hc) k v hv

/-- `create_shader` only ever inserts an absent key into `shaders`. -/
theorem create_shader_preserves (s : Pmfx) (file : Option String) (s1 : Pmfx)
    (h : s.create_shader file = Except.ok s1) :
    preserves s s1 ∧ s1.textures = s.textures ∧ s1.views = s.views
      ∧ s1.render_pipelines = s.render_pipelines := by
  match file with
  | none =>
    simp only [Pmfx.create_shader] at h
    cases h
    exact ⟨preserves_refl _, rfl, rfl, rfl⟩
  | some f =>
    simp only [Pmfx.create_shader] at h
    by_cases hc : acontains s.shaders f
    · rw [if_pos hc] at h
      cases h
      exact ⟨preserves_refl _, rfl, rfl, rfl⟩
    · rw [if_neg hc] at h
      by_cases hm : f ∈ s.device.shader_files
      · rw [if_pos hm] at h
        rcases hh : alookup s.pmfx.shaders f with _ | hash
        · rw [hh] at h
          cases h
        · rw [hh] at h
          cases h
          refine ⟨⟨fun _ _ hv => hv, fun _ _ hv => hv, ?_,
            fun _ fp hfp => ⟨fp, hfp, fun _ _ he => he⟩⟩, rfl, rfl, rfl⟩
          intro k v hv
          exact alookup_ainsert_preserve _ _ _ (by simpa using hc) k v hv
      · rw [if_neg hm] at h
        cases h

/-- A transition barrier never touches the four object maps. -/
theorem ctb_maps (s : Pmfx) (tb : TextureBarriers) (vn tn : String)
    (ts : ResourceState) (s2 : Pmfx) (tb2 : TextureBarriers)
    (h : s.create_texture_transition_barrier tb vn tn ts = Except.ok (s2, tb2)) :
    s2.textures = s.textures ∧ s2.views = s.views ∧ s2.shaders = s.shaders
    ∧ s2.render_pipelines = s.render_pipelines := by
  unfold Pmfx.create_texture_transition_barrier GfxDevice.create_cmd_buf
    GfxDevice.fresh at h
  simp only [] at h
  split at h
  all_goals try split at h
  all_goals try split at h
  all_goals cases h
  all_goals exact ⟨rfl, rfl, rfl, rfl⟩

/-- A resolve transition never touches the four object maps. -/
theorem crt_maps (s : Pmfx) (tb : TextureBarriers) (vn tn : String)
    (ts : ResourceState) :
    (s.create_resolve_transition tb vn tn ts).1.textures = s.textures
    ∧ (s.create_resolve_transition tb vn tn ts).1.views = s.views
    ∧ (s.create_resolve_transition tb vn tn ts).1.shaders = s.shaders
    ∧ (s.create_resolve_transition tb vn tn ts).1.render_pipelines
        = s.render_pipelines := by
  unfold Pmfx.create_resolve_transition GfxDevice.create_cmd_buf GfxDevice.fresh
  simp only []
  split
  all_goals try split
  all_goals try split
  all_goals exact ⟨rfl, rfl, rfl, rfl⟩

/-- One end-of-frame step never touches the four object maps. -/
theorem eof_step_maps (p : Pmfx × TextureBarriers) (name : String)
    (q : Pmfx × TextureBarriers) (h : eof_step p name = Except.ok q) :
    q.1.textures = p.1.textures ∧ q.1.views = p.1.views
    ∧ q.1.shaders = p.1.shaders ∧ q.1.render_pipelines = p.1.render_pipelines := by
  unfold eof_step at h
  obtain ⟨q1, q2⟩ := q
  obtain ⟨m1, m2, m3, m4⟩ := ctb_maps _ _ _ _ _ _ _ h
  obtain ⟨r1, r2, r3, r4⟩ := crt_maps p.1 p.2 "eof" name ResourceState.ShaderResource
  exact ⟨m1.trans r1, m2.trans r2, m3.trans r3, m4.trans r4⟩

/-- The render-target/depth-stencil barrier folds of `sched_node` never
touch the four object maps. -/
theorem ctb_fold_maps (vn : String) (ts : ResourceState) (L : List String) :
    ∀ (p q : Pmfx × TextureBarriers),
    L.foldlM (fun (p : Pmfx × TextureBarriers) n =>
      p.1.create_texture_transition_barrier p.2 vn n ts) p = Except.ok q →
    q.1.textures = p.1.textures ∧ q.1.views = p.1.views
    ∧ q.1.shaders = p.1.shaders ∧ q.1.render_pipelines = p.1.render_pipelines := by
  induction L with
  | nil =>
    intro p q h
    cases h
    exact ⟨rfl, rfl, rfl, rfl⟩
  | cons n rest ih =>
    intro p q h
    rw [List.foldlM_cons] at h
    obtain ⟨a, ha, h2⟩ := except_bind_ok h
    obtain ⟨a1, a2⟩ := a
    obtain ⟨m1, m2, m3, m4⟩ := ctb_maps _ _ _ _ _ _ _ ha
    obtain ⟨r1, r2, r3, r4⟩ := ih _ _ h2
    exact ⟨r1.trans m1, r2.trans m2, r3.trans m3, r4.trans m4⟩

/-- The per-texture step of `create_view`'s target/depth folds preserves
present entries and leaves views, shaders and pipelines untouched. -/
theorem view_texfold_preserves (gvn : String) (names : List String) :
    ∀ (s s1 : Pmfx),
    names.foldlM (fun (st : Pmfx) name => do
      let st ← st.create_texture name
      Except.ok { st with
        view_texture_refs := refs_insert st.view_texture_refs name gvn }) s
      = Except.ok s1 →
    preserves s s1 ∧ s1.views = s.views ∧ s1.shaders = s.shaders
      ∧ s1.render_pipelines = s.render_pipelines := by
  induction names with
  | nil =>
    intro s s1 h
    cases h
    exact ⟨preserves_refl _, rfl, rfl, rfl⟩
  | cons n rest ih =>
    intro s s1 h
    rw [List.foldlM_cons] at h
    obtain ⟨a, ha, h2⟩ := except_bind_ok h
    obtain ⟨b, hb, h3⟩ := except_bind_ok ha
    cases h3
    obtain ⟨pb, e1, e2, e3⟩ := create_texture_preserves _ _ _ hb
    obtain ⟨pr, f1, f2, f3⟩ := ih _ _ h2
    refine ⟨preserves_trans (preserves_trans pb (preserves_refl _)) ?_,
      f1.trans e1, f2.trans e2, f3.trans e3⟩
    exact pr

/-- `create_view` only ever inserts an absent graph-view key. -/
theorem create_view_preserves (s : Pmfx) (vn gvn : String) (info : GraphViewInfo)
    (s1 : Pmfx) (h : s.create_view vn gvn info = Except.ok s1) :
    preserves s s1 := by
  unfold Pmfx.create_view at h
  by_cases hc : acontains s.views gvn = true
  · rw [if_pos hc] at h
    cases h
    exact preserves_refl _
  · rw [if_neg (by simp [hc])] at h
    rcases hpv : alookup s.pmfx.views vn with _ | pv
    · rw [hpv] at h
      cases h
      exact preserves_refl _
    · rw [hpv] at h
      obtain ⟨a, ha, h⟩ := except_bind_ok h
      obtain ⟨b, hb, h⟩ := except_bind_ok h
      obtain ⟨c, -, h⟩ := except_bind_ok h
      obtain ⟨d, -, h⟩ := except_bind_ok h
      obtain ⟨pa, a1, a2, a3⟩ := view_texfold_preserves gvn _ _ _ ha
      obtain ⟨pb, b1, b2, b3⟩ := view_texfold_preserves gvn _ _ _ hb
      have hbviews : b.views = s.views := b1.trans a1
      have hbc : acontains b.views gvn = false := by
        rw [hbviews]
        simpa using hc
      have hkey : ∀ (x : Nat × View × String),
          preserves s { b with views := ainsert b.views gvn x } := by
        intro x
        refine preserves_trans (preserves_trans pa pb) ?_
        refine ⟨fun k v hv => hv, ?_, fun k v hv => hv,
          fun _ fp hfp => ⟨fp, hfp, fun _ _ he => he⟩⟩
        intro k v hv
        exact alookup_ainsert_preserve _ _ _ hbc k v hv
      simp only [] at h
      split at h
      all_goals try split at h
      all_goals try cases h
      all_goals
        obtain ⟨e, -, h2⟩ := except_bind_ok h
      all_goals
        obtain ⟨f, -, h3⟩ := except_bind_ok h2
      all_goals cases h3
      all_goals exact hkey _

/-- `shader_step` preserves present entries and leaves the other maps
untouched. -/
theorem shader_step_preserves (s : Pmfx) (perm : Nat × Pipeline) (s1 : Pmfx)
    (h : shader_step s perm = Except.ok s1) : preserves s s1 := by
  unfold shader_step at h
  obtain ⟨a, ha, h⟩ := except_bind_ok h
  obtain ⟨b, hb, h⟩ := except_bind_ok h
  exact preserves_trans (create_shader_preserves _ _ _ ha).1
    (preserves_trans (create_shader_preserves _ _ _ hb).1
      (create_shader_preserves _ _ _ h).1)

theorem shader_fold_preserves (l : List (Nat × Pipeline)) :
    ∀ (s s1 : Pmfx), l.foldlM shader_step s = Except.ok s1 → preserves s s1 := by
  induction l with
  | nil =>
    intro s s1 h
    cases h
    exact preserves_refl _
  | cons p rest ih =>
    intro s s1 h
    rw [List.foldlM_cons] at h
    obtain ⟨a, ha, h2⟩ := except_bind_ok h
    exact preserves_trans (shader_step_preserves _ _ _ ha) (ih _ _ h2)

/-- `pso_step` keeps every render-pipeline entry other than the pipeline
being built (and all other maps). -/
theorem pso_step_preserves_except (fmt : Nat) (pn : String) (st : Pmfx)
    (perm : Nat × Pipeline) (st1 : Pmfx)
    (h : pso_step fmt pn st perm = Except.ok st1) :
    st1.textures = st.textures ∧ st1.views = st.views ∧ st1.shaders = st.shaders
    ∧ (∀ fmt2 fp, alookup st.render_pipelines fmt2 = some fp →
        ∃ fp1, alookup st1.render_pipelines fmt2 = some fp1
          ∧ ∀ n e, (fmt2 ≠ fmt ∨ n ≠ pn) → alookup fp n = some e →
              alookup fp1 n = some e) := by
  unfold pso_step GfxDevice.fresh at h
  try simp only [] at h
  rcases hcs : st.get_shader perm.2.cs with _ | cs
  · rw [hcs] at h
    try simp only [] at h
    rcases hvl : perm.2.vertex_layout with _ | l
    · rw [hvl] at h
      try simp only [] at h
      cases h
    · rw [hvl] at h
      try simp only [] at h
      rcases hfmt : alookup st.render_pipelines fmt with _ | fp0
      · rw [hfmt] at h
        try simp only [] at h
        cases h
      · rw [hfmt] at h
        try simp only [] at h
        rcases hfpn : alookup fp0 pn with _ | perms
        · rw [hfpn] at h
          try simp only [] at h
          cases h
        · rw [hfpn] at h
          try simp only [] at h
          cases h
          refine ⟨rfl, rfl, rfl, ?_⟩
          intro fmt2 fp hfp
          by_cases hf : fmt2 = fmt
          · subst hf
            rw [hfmt] at hfp
            injection hfp with he2
            subst he2
            refine ⟨_, alookup_ainsert_self _ _ _, ?_⟩
            intro n e hne he
            rcases hne with hne | hne
            · exact absurd rfl hne
            · rw [alookup_ainsert_ne _ pn n _ hne]
              exact he
          · refine ⟨fp, ?_, fun _ _ _ he => he⟩
            rw [alookup_ainsert_ne _ fmt fmt2 _ hf]
            exact hfp
  · rw [hcs] at h
    try simp only [] at h
    cases h
    exact ⟨rfl, rfl, rfl, fun _ fp hfp => ⟨fp, hfp, fun _ _ _ he => he⟩⟩

theorem pso_fold_preserves_except (fmt : Nat) (pn : String)
    (l : List (Nat × Pipeline)) :
    ∀ (s s1 : Pmfx), l.foldlM (pso_step fmt pn) s = Except.ok s1 →
    s1.textures = s.textures ∧ s1.views = s.views ∧ s1.shaders = s.shaders
    ∧ (∀ fmt2 fp, alookup s.render_pipelines fmt2 = some fp →
        ∃ fp1, alookup s1.render_pipelines fmt2 = some fp1
          ∧ ∀ n e, (fmt2 ≠ fmt ∨ n ≠ pn) → alookup fp n = some e →
              alookup fp1 n = some e) := by
  induction l with
  | nil =>
    intro s s1 h
    cases h
    exact ⟨rfl, rfl, rfl, fun _ fp hfp => ⟨fp, hfp, fun _ _ _ he => he⟩⟩
  | cons p rest ih =>
    intro s s1 h
    rw [List.foldlM_cons] at h
    obtain ⟨a, ha, h2⟩ := except_bind_ok h
    obtain ⟨e1, e2, e3, e4⟩ := pso_step_preserves_except _ _ _ _ _ ha
    obtain ⟨f1, f2, f3, f4⟩ := ih _ _ h2
    refine ⟨f1.trans e1, f2.trans e2, f3.trans e3, ?_⟩
    intro fmt2 fp hfp
    obtain ⟨fp1, hfp1, hin1⟩ := e4 fmt2 fp hfp
    obtain ⟨fp2, hfp2, hin2⟩ := f4 fmt2 fp1 hfp1
    exact ⟨fp2, hfp2, fun n e hne he => hin2 n e hne (hin1 n e hne he)⟩

/-- `create_pipeline` keeps every present entry of all four maps: the
pso-building branch only runs when the pipeline name is absent for the
pass format. -/
theorem create_pipeline_preserves (s : Pmfx) (pn : String) (pass : RenderPass)
    (s1 : Pmfx) (h : s.create_pipeline pn pass = Except.ok s1) :
    preserves s s1 := by
  unfold Pmfx.create_pipeline at h
  rcases hpp : alookup s.pmfx.pipelines pn with _ | perms
  · rw [hpp] at h
    cases h
  · rw [hpp] at h
    try simp only [] at h
    rcases hfl : alookup s.pmfx_folders pn with _ | fl
    · rw [hfl] at h
      obtain ⟨x, hx, -⟩ := except_bind_ok h
      cases hx
    · rw [hfl] at h
      try simp only [] at h
      obtain ⟨fl2, -, h⟩ := except_bind_ok h
      obtain ⟨s2, hs2, h⟩ := except_bind_ok h
      try simp only [] at h
      have hpres2 : preserves s s2 := shader_fold_preserves _ _ _ hs2
      have hense : preserves s2 (ensure_format_entry pass.format_hash s2) := by
        unfold ensure_format_entry
        by_cases hc : acontains s2.render_pipelines pass.format_hash = true
        · rw [if_pos hc]
          exact preserves_refl _
        · rw [if_neg hc]
          refine ⟨fun _ _ hv => hv, fun _ _ hv => hv, fun _ _ hv => hv, ?_⟩
          intro fmt fp hfp
          refine ⟨fp, ?_, fun _ _ he => he⟩
          exact alookup_ainsert_preserve _ _ _ (by simpa using hc) fmt fp hfp
      rcases hfp : alookup (ensure_format_entry pass.format_hash s2).render_pipelines
          pass.format_hash with _ | fp
      · rw [hfp] at h
        try simp only [] at h
        cases h
      · rw [hfp] at h
        try simp only [] at h
        by_cases hfppn : acontains fp pn = true
        · rw [if_pos hfppn] at h
          cases h
          exact preserves_trans hpres2 hense
        · rw [if_neg hfppn] at h
          obtain ⟨g1, g2, g3, g4⟩ := pso_fold_preserves_except _ _ _ _ _ h
          refine preserves_trans (preserves_trans hpres2 hense) ?_
          refine ⟨fun k v hv => by rw [g1]; exact hv,
            fun k v hv => by rw [g2]; exact hv,
            fun k v hv => by rw [g3]; exact hv, ?_⟩
          intro fmt2 fp2 hfp2
          by_cases hf : fmt2 = pass.format_hash
          · subst hf
            rw [hfp] at hfp2
            injection hfp2 with he2
            subst he2
            have hstep : alookup
                (ainsert (ensure_format_entry pass.format_hash s2).render_pipelines
                  pass.format_hash (ainsert fp pn [])) pass.format_hash
                = some (ainsert fp pn []) :=
              alookup_ainsert_self _ _ _
            obtain ⟨fp3, hfp3, hin3⟩ := g4 pass.format_hash _ hstep
            refine ⟨fp3, hfp3, ?_⟩
            intro n e he
            have hnpn : n ≠ pn := by
              intro hn
              subst hn
              have : acontains fp n = true := (acontains_iff fp n).mpr ⟨e, he⟩
              exact hfppn this
            refine hin3 n e (Or.inr hnpn) ?_
            rw [alookup_ainsert_ne _ pn n _ hnpn]
            exact he
          · have hstep : alookup
                (ainsert (ensure_format_entry pass.format_hash s2).render_pipelines
                  pass.format_hash (ainsert fp pn [])) fmt2 = some fp2 := by
              rw [alookup_ainsert_ne _ pass.format_hash fmt2 _ hf]
              exact hfp2
            obtain ⟨fp3, hfp3, hin3⟩ := g4 fmt2 _ hstep
            exact ⟨fp3, hfp3, fun n e he => hin3 n e (Or.inl hf) he⟩

/-- The pipeline-building fold of `sched_node` preserves present entries. -/
theorem sched_pipefold_preserves (gvn : String) (L : List String) :
    ∀ (s s1 : Pmfx), L.foldlM (fun (sp : Pmfx) pipeline => do
      let v ← sp.get_view gvn
      sp.create_pipeline pipeline v.2.1.pass) s = Except.ok s1 →
    preserves s s1 := by
  induction L with
  | nil =>
    intro s s1 h
    cases h
    exact preserves_refl _
  | cons p rest ih =>
    intro s s1 h
    rw [List.foldlM_cons] at h
    obtain ⟨a, ha, h2⟩ := except_bind_ok h
    obtain ⟨v, -, h3⟩ := except_bind_ok ha
    exact preserves_trans (create_pipeline_preserves _ _ _ _ h3) (ih _ _ h2)

/-- A scheduling step preserves present entries of all four maps. -/
theorem sched_node_preserves (g : List (String × GraphViewInfo)) (st : SchedState)
    (node : String × GraphViewInfo) (st1 : SchedState)
    (h : sched_node g st node = Except.ok st1) : preserves st.s st1.s := by
  unfold sched_node at h
  try simp only [] at h
  rcases hv : alookup st.s.pmfx.views node.2.view with _ | pmfx_view
  · rw [hv] at h
    try simp only [] at h
    cases h
    exact preserves_of_eq rfl rfl rfl rfl
  · rw [hv] at h
    try simp only [] at h
    by_cases hdep : node.1 ∈ st.dependencies
    · rw [if_pos hdep] at h
      cases h
      exact preserves_refl _
    · rw [if_neg hdep] at h
      try simp only [] at h
      rcases hdo : node.2.depends_on with _ | dl
      · rw [hdo] at h
        try simp only [] at h
        rw [if_neg (by decide : ¬ (true = false))] at h
        try simp only [] at h
        obtain ⟨a, ha, h⟩ := except_bind_ok h
        try simp only [] at h
        obtain ⟨hm1, hm2, hm3, hm4⟩ := ctb_fold_maps node.2.view
          ResourceState.RenderTarget _ _ _ ha
        obtain ⟨b, hb, h⟩ := except_bind_ok h
        try simp only [] at h
        obtain ⟨hn1, hn2, hn3, hn4⟩ := ctb_fold_maps node.2.view
          ResourceState.DepthStencil _ _ _ hb
        rcases hp : node.2.pipelines with _ | vps
        · rw [hp] at h
          try simp only [] at h
          cases h
          exact preserves_of_eq (hn1.trans hm1) (hn2.trans hm2) (hn3.trans hm3)
            (by rw [hn4, hm4])
        · rw [hp] at h
          try simp only [] at h
          obtain ⟨c, hc, h⟩ := except_bind_ok h
          try simp only [] at h
          cases h
          exact preserves_trans
            (preserves_of_eq (hn1.trans hm1) (hn2.trans hm2) (hn3.trans hm3)
              (by rw [hn4, hm4]))
            (preserves_trans (sched_pipefold_preserves node.1 vps _ _ hc)
              (preserves_of_eq rfl rfl rfl rfl))
      · rw [hdo] at h
        try simp only [] at h
        by_cases hlen : 0 < dl.length
        · rw [if_pos hlen] at h
          try simp only [] at h
          by_cases hpw : (dl.foldl (fun acc d =>
              if ¬ acontains g d = true then
                (true, acc.2 ++ ["view " ++ node.2.view ++
                  " missing dependency " ++ d ++ ". ignoring"])
              else if d ∈ st.dependencies then (true, acc.2)
              else (false, acc.2)) (false, [])).1 = false
          · rw [if_pos hpw] at h
            cases h
            exact preserves_of_eq rfl rfl rfl rfl
          · rw [if_neg hpw] at h
            try simp only [] at h
            obtain ⟨a, ha, h⟩ := except_bind_ok h
            try simp only [] at h
            obtain ⟨hm1, hm2, hm3, hm4⟩ := ctb_fold_maps node.2.view
              ResourceState.RenderTarget _ _ _ ha
            obtain ⟨b, hb, h⟩ := except_bind_ok h
            try simp only [] at h
            obtain ⟨hn1, hn2, hn3, hn4⟩ := ctb_fold_maps node.2.view
              ResourceState.DepthStencil _ _ _ hb
            rcases hp : node.2.pipelines with _ | vps
            · rw [hp] at h
              try simp only [] at h
              cases h
              exact preserves_of_eq (hn1.trans hm1) (hn2.trans hm2) (hn3.trans hm3)
                (by rw [hn4, hm4])
            · rw [hp] at h
              try simp only [] at h
              obtain ⟨c, hc, h⟩ := except_bind_ok h
              try simp only [] at h
              cases h
              exact preserves_trans
                (preserves_of_eq (hn1.trans hm1) (hn2.trans hm2) (hn3.trans hm3)
                  (by rw [hn4, hm4]))
                (preserves_trans (sched_pipefold_preserves node.1 vps _ _ hc)
                  (preserves_of_eq rfl rfl rfl rfl))
        · rw [if_neg hlen] at h
          try simp only [] at h
          rw [if_pos trivial] at h
          cases h
          exact preserves_of_eq rfl rfl rfl rfl

theorem sched_fold_preserves (g l : List (String × GraphViewInfo)) :
    ∀ (st st1 : SchedState), l.foldlM (sched_node g) st = Except.ok st1 →
    preserves st.s st1.s := by
  induction l with
  | nil =>
    intro st st1 h
    cases h
    exact preserves_refl _
  | cons n rest ih =>
    intro st st1 h
    rw [List.foldlM_cons] at h
    obtain ⟨a, ha, h2⟩ := except_bind_ok h
    exact preserves_trans (sched_node_preserves _ _ _ _ ha) (ih _ _ h2)

theorem sched_loop_preserves (g : List (String × GraphViewInfo)) :
    ∀ (fuel : Nat) (st st1 : SchedState),
    sched_loop g fuel st = Except.ok st1 → preserves st.s st1.s := by
  intro fuel
  induction fuel with
  | zero =>
    intro st st1 h
    simp only [sched_loop] at h
    by_cases hlt : st.added < st.to_add
    · rw [if_pos hlt] at h
      cases h
    · rw [if_neg hlt] at h
      cases h
      exact preserves_refl _
  | succ n ih =>
    intro st st1 h
    simp only [sched_loop] at h
    by_cases hlt : st.added < st.to_add
    · rw [if_pos hlt] at h
      obtain ⟨a, ha, h2⟩ := except_bind_ok h
      exact preserves_trans (sched_fold_preserves g g _ _ ha) (ih _ _ h2)
    · rw [if_neg hlt] at h
      cases h
      exact preserves_refl _

theorem cv_fold_preserves (l : List (String × GraphViewInfo)) :
    ∀ (s s1 : Pmfx),
    l.foldlM (fun (st : Pmfx) node => st.create_view node.2.view node.1 node.2) s
      = Except.ok s1 → preserves s s1 := by
  induction l with
  | nil =>
    intro s s1 h
    cases h
    exact preserves_refl _
  | cons n rest ih =>
    intro s s1 h
    rw [List.foldlM_cons] at h
    obtain ⟨a, ha, h2⟩ := except_bind_ok h
    exact preserves_trans (create_view_preserves _ _ _ _ _ ha) (ih _ _ h2)

theorem create_render_graph_views_preserves (s : Pmfx) (graph_name : String)
    (s1 : Pmfx) (h : s.create_render_graph_views graph_name = Except.ok s1) :
    preserves s s1 := by
  unfold Pmfx.create_render_graph_views at h
  rcases hg : alookup s.pmfx.render_graphs graph_name with _ | g
  · rw [hg] at h
    cases h
    exact preserves_refl _
  · rw [hg] at h
    exact cv_fold_preserves _ _ _ h

theorem eof_fold_maps (L : List String) :
    ∀ (p q : Pmfx × TextureBarriers), L.foldlM eof_step p = Except.ok q →
    q.1.textures = p.1.textures ∧ q.1.views = p.1.views
    ∧ q.1.shaders = p.1.shaders ∧ q.1.render_pipelines = p.1.render_pipelines := by
  induction L with
  | nil =>
    intro p q h
    cases h
    exact ⟨rfl, rfl, rfl, rfl⟩
  | cons n rest ih =>
    intro p q h
    rw [List.foldlM_cons] at h
    obtain ⟨a, ha, h2⟩ := except_bind_ok h
    obtain ⟨m1, m2, m3, m4⟩ := eof_step_maps _ _ _ ha
    obtain ⟨r1, r2, r3, r4⟩ := ih _ _ h2
    exact ⟨r1.trans m1, r2.trans m2, r3.trans m3, r4.trans m4⟩

/-- `create_render_graph` preserves present entries of all four maps: it
re-creates views, textures, shaders and pipelines but never removes or
overwrites an existing one. -/
theorem create_render_graph_preserves (s : Pmfx) (graph_name : String)
    (fuel : Nat) (s1 : Pmfx)
    (h : s.create_render_graph graph_name fuel = Except.ok s1) :
    preserves s s1 := by
  unfold Pmfx.create_render_graph at h
  rcases hg : alookup s.pmfx.render_graphs graph_name with _ | g
  · rw [hg] at h
    try simp only [] at h
    cases h
  · rw [hg] at h
    try simp only [] at h
    obtain ⟨a, ha, h⟩ := except_bind_ok h
    try simp only [] at h
    obtain ⟨stx, hst, h⟩ := except_bind_ok h
    try simp only [] at h
    obtain ⟨pq, hpq, h⟩ := except_bind_ok h
    try simp only [] at h
    cases h
    refine preserves_trans (create_render_graph_views_preserves _ _ _ ha) ?_
    refine preserves_trans (preserves_of_eq rfl rfl rfl rfl :
      preserves a { a with barriers := [], render_graph_execute_order := [] }) ?_
    refine preserves_trans ?_ (preserves_of_eq rfl rfl rfl rfl)
    obtain ⟨m1, m2, m3, m4⟩ := eof_fold_maps _ _ _ hpq
    refine preserves_trans ?_ (preserves_of_eq m1 m2 m3 (by rw [m4]))
    exact sched_loop_preserves g fuel _ _ hst

/-- `recreate_textures` removes only the named textures; everything else
is preserved. -/
theorem recreate_textures_preserves (L : List String) :
    ∀ (s s1 : Pmfx), s.recreate_textures L = Except.ok s1 →
    (∀ k v, k ∉ L → alookup s.textures k = some v → alookup s1.textures k = some v)
    ∧ (∀ k v, alookup s.views k = some v → alookup s1.views k = some v)
    ∧ (∀ k v, alookup s.shaders k = some v → alookup s1.shaders k = some v)
    ∧ (∀ fmt fp, alookup s.render_pipelines fmt = some fp →
        ∃ fp1, alookup s1.render_pipelines fmt = some fp1
          ∧ ∀ n e, alookup fp n = some e → alookup fp1 n = some e) := by
  induction L with
  | nil =>
    intro s s1 h
    cases h
    exact ⟨fun _ _ _ hv => hv, fun _ _ hv => hv, fun _ _ hv => hv,
      fun _ fp hfp => ⟨fp, hfp, fun _ _ he => he⟩⟩
  | cons n rest ih =>
    intro s s1 h
    unfold Pmfx.recreate_textures at h
    rw [List.foldlM_cons] at h
    obtain ⟨a, ha, h2⟩ := except_bind_ok h
    rcases htn : alookup s.textures n with _ | tex
    · rw [htn] at ha
      try simp only [] at ha
      cases ha
    · rw [htn] at ha
      try simp only [] at ha
      obtain ⟨pt, e1, e2, e3⟩ := create_texture_preserves _ _ _ ha
      obtain ⟨it, iv, ish, ir⟩ := ih a s1 h2
      refine ⟨?_, ?_, ?_, ?_⟩
      · intro k v hk hv
        have hkn : k ≠ n := fun he => hk (he ▸ List.mem_cons_self n rest)
        have hkrest : k ∉ rest := fun hm => hk (List.mem_cons_of_mem n hm)
        exact it k v hkrest
          (pt.1 k v ((alookup_aremove_ne s.textures n k hkn).trans hv))
      · intro k v hv
        exact iv k v (pt.2.1 k v hv)
      · intro k v hv
        exact ish k v (pt.2.2.1 k v hv)
      · intro fmt fp hfp
        obtain ⟨fp1, hfp1, hin1⟩ := pt.2.2.2 fmt fp hfp
        obtain ⟨fp2, hfp2, hin2⟩ := ir fmt fp1 hfp1
        exact ⟨fp2, hfp2, fun n2 e he => hin2 n2 e (hin1 n2 e he)⟩

/-- The view-removal loop of `reload` removes exactly the named graph
views and touches nothing else. -/
theorem views_remove_fold (L : List (String × String)) :
    ∀ (s : Pmfx),
    ((L.foldl (fun (st : Pmfx) v => { st with views := aremove st.views v.2 }) s).textures
        = s.textures
      ∧ (L.foldl (fun (st : Pmfx) v => { st with views := aremove st.views v.2 }) s).shaders
        = s.shaders
      ∧ (L.foldl (fun (st : Pmfx) v => { st with views := aremove st.views v.2 }) s).render_pipelines
        = s.render_pipelines)
    ∧ ∀ k x, (∀ p ∈ L, p.2 ≠ k) → alookup s.views k = some x →
      alookup (L.foldl (fun (st : Pmfx) v =>
        { st with views := aremove st.views v.2 }) s).views k = some x := by
  induction L with
  | nil =>
    intro s
    exact ⟨⟨rfl, rfl, rfl⟩, fun _ _ _ hv => hv⟩
  | cons p rest ih =>
    intro s
    rw [List.foldl_cons]
    obtain ⟨⟨e1, e2, e3⟩, hview⟩ := ih { s with views := aremove s.views p.2 }
    refine ⟨⟨e1, e2, e3⟩, ?_⟩
    intro k x hL hv
    refine hview k x (fun q hq => hL q (List.mem_cons_of_mem p hq)) ?_
    have hkp : k ≠ p.2 := Ne.symm (hL p (List.mem_cons_self p rest))
    exact (alookup_aremove_ne s.views p.2 k hkp).trans hv

/-- The shader-removal loop of `reload` removes exactly the named shaders
and touches nothing else. -/
theorem shaders_remove_fold (L : List String) :
    ∀ (s : Pmfx),
    ((L.foldl (fun (st : Pmfx) sh => { st with shaders := aremove st.shaders sh }) s).textures
        = s.textures
      ∧ (L.foldl (fun (st : Pmfx) sh => { st with shaders := aremove st.shaders sh }) s).views
        = s.views
      ∧ (L.foldl (fun (st : Pmfx) sh => { st with shaders := aremove st.shaders sh }) s).render_pipelines
        = s.render_pipelines)
    ∧ ∀ k x, k ∉ L → alookup s.shaders k = some x →
      alookup (L.foldl (fun (st : Pmfx) sh =>
        { st with shaders := aremove st.shaders sh }) s).shaders k = some x := by
  induction L with
  | nil =>
    intro s
    exact ⟨⟨rfl, rfl, rfl⟩, fun _ _ _ hv => hv⟩
  | cons p rest ih =>
    intro s
    rw [List.foldl_cons]
    obtain ⟨⟨e1, e2, e3⟩, hsh⟩ := ih { s with shaders := aremove s.shaders p }
    refine ⟨⟨e1, e2, e3⟩, ?_⟩
    intro k x hL hv
    have hkp : k ≠ p := fun he => hL (he ▸ List.mem_cons_self p rest)
    have hkrest : k ∉ rest := fun hm => hL (List.mem_cons_of_mem p hm)
    exact hsh k x hkrest ((alookup_aremove_ne s.shaders p k hkp).trans hv)

/-- One pipeline-reload step removes only the named pipeline of the named
format before rebuilding it. -/
theorem reload_pipeline_step_preserves (p : Nat × String × Nat) (st st1 : Pmfx)
    (h : reload_pipeline_step st p = Except.ok st1) :
    (∀ k v, alookup st.textures k = some v → alookup st1.textures k = some v)
    ∧ (∀ k v, alookup st.views k = some v → alookup st1.views k = some v)
    ∧ (∀ k v, alookup st.shaders k = some v → alookup st1.shaders k = some v)
    ∧ (∀ fmt fp, alookup st.render_pipelines fmt = some fp →
        ∃ fp1, alookup st1.render_pipelines fmt = some fp1
          ∧ ∀ n e, ¬ (p.1 = fmt ∧ p.2.1 = n) → alookup fp n = some e →
              alookup fp1 n = some e) := by
  unfold reload_pipeline_step at h
  rcases hfp0 : alookup st.render_pipelines p.1 with _ | fp0
  · rw [hfp0] at h
    try simp only [] at h
    cases h
  · rw [hfp0] at h
    try simp only [] at h
    have hstep : ∀ fmt fp, alookup st.render_pipelines fmt = some fp →
        ∃ fp1, alookup
            (ainsert st.render_pipelines p.1 (aremove fp0 p.2.1)) fmt = some fp1
          ∧ ∀ n e, ¬ (p.1 = fmt ∧ p.2.1 = n) → alookup fp n = some e →
              alookup fp1 n = some e := by
      intro fmt fp hfp
      by_cases hf : fmt = p.1
      · subst hf
        rw [hfp0] at hfp
        injection hfp with he2
        subst he2
        refine ⟨aremove fp0 p.2.1, alookup_ainsert_self _ _ _, ?_⟩
        intro n e hne he
        have hn : n ≠ p.2.1 := by
          intro hn2
          exact hne ⟨rfl, hn2.symm⟩
        exact (alookup_aremove_ne fp0 p.2.1 n (by exact hn)).trans he
      · refine ⟨fp, ?_, fun _ _ _ he => he⟩
        rw [alookup_ainsert_ne _ p.1 fmt _ hf]
        exact hfp
    split at h
    · obtain ⟨pc1, pc2, pc3, pc4⟩ := create_pipeline_preserves _ _ _ _ h
      refine ⟨fun k v hv => pc1 k v hv, fun k v hv => pc2 k v hv,
        fun k v hv => pc3 k v hv, ?_⟩
      intro fmt fp hfp
      obtain ⟨fp1, hfp1, hin1⟩ := hstep fmt fp hfp
      obtain ⟨fp2, hfp2, hin2⟩ := pc4 fmt fp1 hfp1
      exact ⟨fp2, hfp2, fun n e hne he => hin2 n e (hin1 n e hne he)⟩
    · cases h
      exact ⟨fun _ _ hv => hv, fun _ _ hv => hv, fun _ _ hv => hv, hstep⟩

/-- The pipeline-reload loop removes only the listed (format, name)
pipelines before rebuilding them. -/
theorem reload_pipes_fold (L : List (Nat × String × Nat)) :
    ∀ (s s1 : Pmfx), L.foldlM reload_pipeline_step s = Except.ok s1 →
    (∀ k v, alookup s.textures k = some v → alookup s1.textures k = some v)
    ∧ (∀ k v, alookup s.views k = some v → alookup s1.views k = some v)
    ∧ (∀ k v, alookup s.shaders k = some v → alookup s1.shaders k = some v)
    ∧ (∀ fmt fp, alookup s.render_pipelines fmt = some fp →
        ∃ fp1, alookup s1.render_pipelines fmt = some fp1
          ∧ ∀ n e, (∀ p ∈ L, ¬ (p.1 = fmt ∧ p.2.1 = n)) →
              alookup fp n = some e → alookup fp1 n = some e) := by
  induction L with
  | nil =>
    intro s s1 h
    cases h
    exact ⟨fun _ _ hv => hv, fun _ _ hv => hv, fun _ _ hv => hv,
      fun _ fp hfp => ⟨fp, hfp, fun _ _ _ he => he⟩⟩
  | cons q rest ih =>
    intro s s1 h
    rw [List.foldlM_cons] at h
    obtain ⟨a, ha, h2⟩ := except_bind_ok h
    obtain ⟨e1, e2, e3, e4⟩ := reload_pipeline_step_preserves _ _ _ ha
    obtain ⟨f1, f2, f3, f4⟩ := ih _ _ h2
    refine ⟨fun k v hv => f1 k v (e1 k v hv), fun k v hv => f2 k v (e2 k v hv),
      fun k v hv => f3 k v (e3 k v hv), ?_⟩
    intro fmt fp hfp
    obtain ⟨fp1, hfp1, hin1⟩ := e4 fmt fp hfp
    obtain ⟨fp2, hfp2, hin2⟩ := f4 fmt fp1 hfp1
    refine ⟨fp2, hfp2, ?_⟩
    intro n e hL he
    exact hin2 n e (fun p hp => hL p (List.mem_cons_of_mem q hp))
      (hin1 n e (hL q (List.mem_cons_self q rest)) he)

/-- C6 (amended): a successful `reload` of a changed pmfx source preserves
every live object outside the hash-diff sets it computes: a texture not in
`reload_textures` (stored hash equal to the merged hash), a view whose
graph name is removed by no `reload_views` entry (own hash unchanged and no
changed texture referenced), a shader not in `reload_shaders`, and — the
corrected granularity — a render-pipeline permutation entry whose pipeline
name, for its pass format, appears in NO `reload_pipelines` entry keep
exactly their previous map entries and backend handles.  A permutation with
an unchanged hash inside a pipeline that has some other changed permutation
is torn down and recreated (see the counterexample). -/
theorem reload_preserves_unchanged (s : Pmfx) (file : File) (fuel : Nat)
    (s1 : Pmfx) (h : s.reload_file file fuel = Except.ok s1) :
    (∀ k v, alookup s.textures k = some v →
      k ∉ reload_textures_of (merge_pmfx s file) →
      alookup s1.textures k = some v)
    ∧ (∀ k v, alookup s.views k = some v →
      (∀ p ∈ reload_views_of (merge_pmfx s file), p.2 ≠ k) →
      alookup s1.views k = some v)
    ∧ (∀ k v, alookup s.shaders k = some v →
      k ∉ reload_shaders_of (merge_pmfx s file) →
      alookup s1.shaders k = some v)
    ∧ (∀ rps2, reload_pipelines_of (merge_pmfx s file) = Except.ok rps2 →
      ∀ fmt fp n e, alookup s.render_pipelines fmt = some fp →
        alookup fp n = some e →
        (∀ p ∈ rps2, ¬ (p.1 = fmt ∧ p.2.1 = n)) →
        ∃ fp1, alookup s1.render_pipelines fmt = some fp1
          ∧ alookup fp1 n = some e) := by
  unfold Pmfx.reload_file at h
  try simp only [] at h
  obtain ⟨rps, hrps, h⟩ := except_bind_ok h
  try simp only [] at h
  obtain ⟨s2, hrec, h⟩ := except_bind_ok h
  try simp only [] at h
  obtain ⟨s5, hpf, h⟩ := except_bind_ok h
  try simp only [] at h
  have hrebuild : preserves s5 s1 := by
    by_cases hrb : decide (reload_views_of (merge_pmfx s file) ≠ []) = true
    · rw [if_pos hrb] at h
      exact create_render_graph_preserves _ _ _ _ h
    · rw [if_neg hrb] at h
      cases h
      exact preserves_refl _
  obtain ⟨rt, rv, rs, rr⟩ := recreate_textures_preserves _ _ _ hrec
  obtain ⟨p1, p2, p3, p4⟩ := reload_pipes_fold rps _ _ hpf
  obtain ⟨⟨vft, vfs, vfr⟩, vfv⟩ :=
    views_remove_fold (reload_views_of (merge_pmfx s file)) s2
  obtain ⟨⟨sft, sfv, sfr⟩, sfs⟩ :=
    shaders_remove_fold (reload_shaders_of (merge_pmfx s file))
      ((reload_views_of (merge_pmfx s file)).foldl
        (fun (st : Pmfx) v => { st with views := aremove st.views v.2 }) s2)
  refine ⟨?_, ?_, ?_, ?_⟩
  · intro k v hv hk
    refine hrebuild.1 k v (p1 k v ?_)
    rw [sft, vft]
    exact rt k v hk hv
  · intro k v hv hcond
    refine hrebuild.2.1 k v (p2 k v ?_)
    rw [sfv]
    exact vfv k v hcond (rv k v hv)
  · intro k v hv hk
    refine hrebuild.2.2.1 k v (p3 k v ?_)
    exact sfs k v hk (by rw [vfs]; exact rs k v hv)
  · intro rps2 hrps2 fmt fp n e hfp he hcond
    have hr2 : rps2 = rps := by
      have h3 := hrps.symm.trans hrps2
      injection h3 with h4
      exact h4.symm
    subst hr2
    obtain ⟨fp1, hfp1, hin1⟩ := rr fmt fp hfp
    obtain ⟨fp2, hfp2, hin2⟩ := p4 fmt fp1 (by rw [sfr, vfr]; exact hfp1)
    obtain ⟨fp3, hfp3, hin3⟩ := hrebuild.2.2.2 fmt fp2 hfp2
    exact ⟨fp3, hfp3, hin3 n e (hin2 n e hcond (hin1 n e he))⟩

def pipeC6a : Pipeline :=
  { vs := some "vs", ps := some "ps", cs := none, vertex_layout := some (), hash := 100 }

def pipeC6b : Pipeline :=
  { vs := some "vs", ps := some "ps", cs := none, vertex_layout := some (), hash := 101 }

def pipeC6q : Pipeline :=
  { vs := some "vs", ps := some "ps", cs := none, vertex_layout := some (), hash := 200 }

def fileC6 : File :=
  { shaders := [("vs", 11), ("ps", 12)],
    pipelines := [("p", [(0, pipeC6a), (1, pipeC6b)]), ("q", [(0, pipeC6q)])],
    textures := [("rt", tRt)],
    views := [("v",
      { render_target := ["rt"], depth_stencil := [], camera := "cam", hash := 2 })],
    render_graphs :=
      [("g", [("n", { view := "v", pipelines := some ["p", "q"],
                      depends_on := none })])] }

def fileC6Bis : File :=
  { fileC6 with
    pipelines := [("p", [(0, pipeC6a), (1, { pipeC6b with hash := 999 })]),
      ("q", [(0, pipeC6q)])] }

def sC6 : Pmfx :=
  { pmfx := fileC6, pmfx_folders := [("p", "data"), ("q", "data")],
    window_sizes := [], render_pipelines := [], compute_pipelines := [],
    shaders := [], textures := [], views := [], barriers := [],
    render_graph_execute_order := [], view_texture_refs := [],
    active_render_graph := "", warnings := [],
    device := { next := 0, shader_files := ["vs", "ps"], destroyed := [] } }

def rp_lookup (s : Pmfx) (fmt : Nat) (n : String) (mask : Nat) : Option (Nat × Nat) :=
  (alookup s.render_pipelines fmt).bind (fun fp =>
    (alookup fp n).bind (fun perms => alookup perms mask))

def sC6a : Pmfx :=
  match sC6.create_render_graph "g" 4 with
  | Except.ok s1 => s1
  | Except.error _ => sC6

def sC6b : Pmfx :=
  match sC6a.reload_file fileC6Bis 4 with
  | Except.ok s2 => s2
  | Except.error _ => sC6a

/-- C6 counterexample: pipeline `p` has permutations `0` (hash 100,
unchanged by the reload) and `1` (hash 101 changed to 999).  `reload`
removes the whole pipeline name from the per-format map and recreates every
permutation, so permutation `0` — whose stored build hash equals the newly
loaded content hash — is torn down and recreated with a new backend pso
handle (6 before, 10 after), contradicting the claim's per-permutation
hash gating. -/
theorem reload_recreates_unchanged_permutation :
    sC6.create_render_graph "g" 4 = Except.ok sC6a
    ∧ sC6a.reload_file fileC6Bis 4 = Except.ok sC6b
    ∧ (alookup fileC6Bis.pipelines "p").bind (fun perms => alookup perms 0)
        = some pipeC6a
    ∧ rp_lookup sC6a 1000007000023 "p" 0 = some (pipeC6a.hash, 6)
    ∧ rp_lookup sC6b 1000007000023 "p" 0 = some (pipeC6a.hash, 10)
    ∧ (6 : Nat) ≠ 10 :=
  ⟨rfl, rfl, rfl, rfl, rfl, by decide⟩

/-- Witness for `reload_preserves_unchanged` on the concrete reload
scenario: the unchanged texture, shader and the untouched pipeline `q`
keep their exact entries across the reload that rebuilds `p`. -/
theorem reload_preserves_unchanged_witness :
    alookup sC6b.textures "rt" = some (1,
      { texture := { handle := 0, resolvable := false, format := 10, samples := 1 },
        ratio := none, size := (4, 4) })
    ∧ alookup sC6b.shaders "vs" = some (11, 4)
    ∧ (∃ fp1, alookup sC6b.render_pipelines 1000007000023 = some fp1
        ∧ alookup fp1 "q" = some [(0, (200, 8))]) :=
  ⟨(reload_preserves_unchanged sC6a fileC6Bis 4 sC6b (by rfl)).1 "rt" _
      (by rfl) (by decide),
   (reload_preserves_unchanged sC6a fileC6Bis 4 sC6b (by rfl)).2.2.1 "vs" (11, 4)
      (by rfl) (by decide),
   (reload_preserves_unchanged sC6a fileC6Bis 4 sC6b (by rfl)).2.2.2
      [(1000007000023, "p", 1)] (by rfl) 1000007000023
      [("p", [(0, (100, 6)), (1, (101, 7))]), ("q", [(0, (200, 8))])] "q"
      [(0, (200, 8))] (by rfl) (by rfl) (by decide)⟩

end Hotline
